import Mathlib

/-!
Verification development for the render-queue execution engine of a V-Ray
batch-render tool for 3ds Max (source file `BatchRender.py`).

Embedding conventions:
* Python strings are Lean `String`s; Python ints are `Int`/`Nat`.
* Mutable 3ds Max globals (render width/height, pixel aspect, the render
  settings dialog) are an explicit `HostState` record threaded through the
  executor.
* Host calls with results the program only observes (the render primitive,
  filesystem probes, the wall clock, UI confirmation dialogs) are modelled as
  oracle inputs consumed in program order.
* Fallible Python code returns `Except PyErr`.  `ValueError` is the one
  exception the per-entry `except ValueError` handler in `main` catches;
  every other exception (`UnboundLocalError`, `IndexError`) aborts the run.
-/

namespace BatchRender

/-- Python exceptions relevant to the engine.  `valueError` is caught by the
per-entry handler in `main`; the others propagate out of the run. -/
inductive PyErr where
  | valueError (msg : String)
  | unboundLocal (name : String)
  | indexError (msg : String)
deriving DecidableEq

deriving instance DecidableEq for Except

/-! ### Python string primitives

The engine manipulates strings with `str.strip`, `str.replace`, `in`,
`str.split`, `str.lower`, `re.sub` with a literal pattern and `IGNORECASE`,
`int(...)` and `%04d`/f-string formatting.  These are modelled below on
`List Char`, with fuel equal to the string length where the Python loop
consumes at least one character per step (so the fuel never runs out). -/

/-- Leading and trailing whitespace removal, `str.strip()`. -/
def stripChars (l : List Char) : List Char :=
  ((l.dropWhile Char.isWhitespace).reverse.dropWhile Char.isWhitespace).reverse

/-- `str.strip()` on strings. -/
def pyStrip (s : String) : String := String.mk (stripChars s.data)

/-- Substring test, Python `needle in hay` (on char lists). -/
def containsSub (needle : List Char) : List Char → Bool
  | [] => needle.isEmpty
  | c :: rest => needle.isPrefixOf (c :: rest) || containsSub needle rest

/-- Python `needle in hay` on strings. -/
def strContains (hay needle : String) : Bool := containsSub needle.data hay.data

/-- One pass of `str.replace` (all occurrences, left to right, case
sensitive).  Each step consumes at least one character of `s`, so fuel
`s.length` makes this exactly the Python loop; an empty pattern (which the
program never passes) leaves the string unchanged. -/
def replaceAux (fuel : Nat) (s pat repl : List Char) : List Char :=
  match fuel, s with
  | 0, s => s
  | _ + 1, [] => []
  | fuel + 1, c :: rest =>
    if pat ≠ [] ∧ pat.isPrefixOf (c :: rest) then
      repl ++ replaceAux fuel (List.drop pat.length (c :: rest)) pat repl
    else
      c :: replaceAux fuel rest pat repl

/-- Python `s.replace(pat, repl)`. -/
def pyReplace (s pat repl : String) : String :=
  String.mk (replaceAux s.data.length s.data pat.data repl.data)

/-- `re.sub(pat, repl, s, flags=re.IGNORECASE)` for a literal pattern:
case-insensitive match, replacement inserted verbatim, left to right,
non-overlapping.  `patL` is the pattern already lower-cased. -/
def ciReplaceAux (fuel : Nat) (s patL repl : List Char) : List Char :=
  match fuel, s with
  | 0, s => s
  | _ + 1, [] => []
  | fuel + 1, c :: rest =>
    if patL ≠ [] ∧ patL.isPrefixOf ((c :: rest).map Char.toLower) then
      repl ++ ciReplaceAux fuel (List.drop patL.length (c :: rest)) patL repl
    else
      c :: ciReplaceAux fuel rest patL repl

/-- Case-insensitive literal-pattern `re.sub`. -/
def ciReplace (s pat repl : String) : String :=
  String.mk (ciReplaceAux s.data.length s.data (pat.data.map Char.toLower) repl.data)

/-- `pat.lower() in s.lower()`. -/
def ciContains (hay pat : String) : Bool :=
  containsSub (pat.data.map Char.toLower) (hay.data.map Char.toLower)

/-- Python `s.lower()` (ASCII, which is all the engine uses). -/
def pyLower (s : String) : String := String.mk (s.data.map Char.toLower)

/-- Decimal digits of `n`, most significant first; fuel `n + 1` always
suffices since `n / 10 < n` for `n ≥ 1`. -/
def natStrAux : Nat → Nat → List Char → List Char
  | 0, _, acc => acc
  | fuel + 1, n, acc =>
    let d := Nat.digitChar (n % 10)
    if n / 10 = 0 then d :: acc else natStrAux fuel (n / 10) (d :: acc)

/-- Python `str(n)` for a natural number. -/
def natStr (n : Nat) : String := String.mk (natStrAux (n + 1) n [])

/-- Numeric value of a digit character (proof tool for `natStr`). -/
def charVal (c : Char) : Nat := c.toNat - '0'.toNat

/-- Value of a most-significant-first digit-character list (proof tool). -/
def valOfDigits (l : List Char) : Nat := l.foldl (fun a c => 10 * a + charVal c) 0

/-- Python `str(n)` for an integer. -/
def intStr (n : Int) : String :=
  if n < 0 then "-" ++ natStr n.natAbs else natStr n.natAbs

/-- Zero-pad on the left to `k` characters. -/
def leftPad0 (k : Nat) (s : String) : String :=
  String.mk (List.replicate (k - s.length) '0') ++ s

/-- Python `f"{n:04d}"`: total width 4, sign included, zero-padded. -/
def format04d (n : Int) : String :=
  if n < 0 then "-" ++ leftPad0 3 (natStr n.natAbs) else leftPad0 4 (natStr n.natAbs)

/-- Helper for `str.split(sep)`. -/
def splitOnAux (sep : Char) : List Char → List Char → List (List Char)
  | [], cur => [cur.reverse]
  | c :: rest, cur =>
    if c = sep then cur.reverse :: splitOnAux sep rest []
    else splitOnAux sep rest (c :: cur)

/-- Python `s.split(sep)` for a one-character separator (`"".split(c) = [""]`). -/
def pySplitStr (s : String) (sep : Char) : List String :=
  (splitOnAux sep s.data []).map String.mk

/-- Numeric value of a decimal digit character. -/
def digitVal (c : Char) : Option Nat :=
  if c.isDigit then some (c.toNat - '0'.toNat) else none

/-- Value of a nonempty all-digit character list. -/
def digitsToNat : List Char → Option Nat
  | [] => none
  | l => l.foldl (fun acc c => acc.bind (fun a => (digitVal c).map (fun d => 10 * a + d))) (some 0)

/-- Python `int(s)`: strip whitespace, optional sign, at least one digit;
`None` models the `ValueError` raised on anything else. -/
def pyInt (s : String) : Option Int :=
  match stripChars s.data with
  | [] => none
  | c :: ds =>
    if c = '-' then
      match ds with
      | [] => none
      | _ => (digitsToNat ds).map (fun n => -(n : Int))
    else if c = '+' then
      match ds with
      | [] => none
      | _ => (digitsToNat ds).map (fun n => (n : Int))
    else (digitsToNat (c :: ds)).map (fun n => (n : Int))

/-- Python `sep.join(xs)`. -/
def joinSep (sep : String) : List String → String
  | [] => ""
  | [x] => x
  | x :: y :: ys => x ++ sep ++ joinSep sep (y :: ys)

/-! ### `os.path` primitives (Windows flavour, as the tool runs inside 3ds
Max on Windows).  Modelled for the already-normalized paths the engine
passes; `os.path.abspath` is the identity on such paths after the join. -/

/-- Path separator test. -/
def isSepChar (c : Char) : Bool := c = '/' || c = '\\'

/-- Second-character colon test (drive letter). -/
def secondIsColon : List Char → Bool
  | c :: _ => c = ':'
  | [] => false

/-- Absolute-path test on raw characters: leading separator or a drive
letter with a colon. -/
def isAbsPathData : List Char → Bool
  | [] => false
  | c :: rest => isSepChar c || secondIsColon rest

/-- Absolute-path test. -/
def isAbsPath (s : String) : Bool := isAbsPathData s.data

/-- `os.path.join(a, b)` for one relative component. -/
def pyJoin (a b : String) : String :=
  if isAbsPath b then b
  else if a = "" then b
  else if (a.data.getLast?).any isSepChar then a ++ b
  else a ++ "\\" ++ b

/-- Characters after the last separator. -/
def basenameData (l : List Char) : List Char :=
  (l.reverse.takeWhile (fun c => !isSepChar c)).reverse

/-- Characters before the last separator (separator dropped). -/
def dirnameData (l : List Char) : List Char :=
  ((l.reverse.dropWhile (fun c => !isSepChar c)).drop 1).reverse

/-- `os.path.split(s)` (non-root directories). -/
def py_os_split (s : String) : String × String :=
  (String.mk (dirnameData s.data), String.mk (basenameData s.data))

/-- `os.path.dirname(s)`. -/
def pyDirname (s : String) : String := String.mk (dirnameData s.data)

/-- `os.path.splitext(s)` for a plain basename (the engine only applies it to
validated names, which never start with a dot). -/
def py_splitext (s : String) : String × String :=
  let r := s.data.reverse
  let extR := r.takeWhile (fun c => c ≠ '.')
  if extR.length = r.length then (s, "")
  else (String.mk ((r.drop (extR.length + 1)).reverse), String.mk ('.' :: extR.reverse))

/-- `convert_path_to_absolute(relative_path)`:
`os.path.abspath(os.path.join(project_folder, relative_path))`, which for the
normalized inputs the engine passes is the join itself. -/
def convert_path_to_absolute (projectFolder p : String) : String := pyJoin projectFolder p

/-- Python truthiness of an optional string (`None` and `""` are falsy). -/
def pyTruthyStr : Option String → Bool
  | none => false
  | some s => s ≠ ""

/-! ### `do_render` and `were_there_render_errors` -/

/-- One line of the V-Ray error log after `line.strip()`.  The full line text
is `tsRaw ++ rest`; `tsRaw` is the first bracketed `[.*?]` group the source's
regex extracts and `ts` models `datetime.strptime` of it (timestamps compare
like integers). -/
structure LogLine where
  tsRaw : String
  ts : Int
  rest : String
deriving DecidableEq

/-- Full text of a stripped log line. -/
def LogLine.text (l : LogLine) : String := l.tsRaw ++ l.rest

/-- `were_there_render_errors(time_of_render)`: first log line at or after
the render start that contains `"error: "`, with the timestamp-and-marker
text rewritten to `Error` and the result stripped. -/
def were_there_render_errors (time_of_render : Int) (log : List LogLine) : Option String :=
  match log.find? (fun l => decide (time_of_render ≤ l.ts) && strContains l.text "error: ") with
  | some l => some (pyStrip (pyReplace l.text (l.tsRaw ++ " error") "Error"))
  | none => none

/-- The facts about one host render call that `do_render` observes: the
`canceled` flag returned by `rt.render`, whether the output EXR exists
afterwards, `time.time() - os.path.getmtime(...)` in seconds, the V-Ray log
and the `datetime.now()` taken at the start of the call. -/
structure RenderObs where
  canceled : Bool
  fileExists : Bool
  fileAge : Int
  log : List LogLine
  t0 : Int

/-- The staleness warning text assigned to `vray_log_error` (sic). -/
def staleFileMsg : String :=
  "Waring: File seems too old in relation to when the image was rendered. The image may have not written to the file correctly."

/-- The `vray_log_error` value `do_render` computes before classifying. -/
def do_render_error (o : RenderObs) : Option String :=
  if !o.canceled then
    if o.fileExists then
      if o.fileAge ≥ 60 then some staleFileMsg else none
    else some "Error: File doesn\x27t exist!"
  else were_there_render_errors o.t0 o.log

/-- `do_render` classification: 0 = success, 1 = canceled, 2 = failed. -/
def do_render (o : RenderObs) : Nat :=
  let err := do_render_error o
  if !o.canceled && !pyTruthyStr err then 0
  else if o.canceled && !pyTruthyStr err then 1
  else 2

/-! ### Frame ranges -/

/-- A resolved frame sequence: a Python list or a Python `range` object
(`range(start, stop, step)`, `stop` exclusive). -/
inductive FrameRange where
  | lst (xs : List Int)
  | rng (start stop step : Int)
deriving DecidableEq

/-- The elements of `range(start, stop, step)` for a positive step (the
engine only builds steps ≥ 1: literal ranges use 1 and `rendNThFrame` is at
least 1 in the host). -/
def rangeToList (start stop step : Int) : List Int :=
  if step ≤ 0 then []
  else (List.range ((stop - start + step - 1) / step).toNat).map
    (fun i => start + step * (i : Int))

/-- The frames a `FrameRange` iterates over. -/
def FrameRange.toList : FrameRange → List Int
  | .lst xs => xs
  | .rng a b s => rangeToList a b s

/-- `len(frame_range)`. -/
def FrameRange.len (fr : FrameRange) : Nat := fr.toList.length

/-- The `ValueError` message of a failed `int(...)`. -/
def intValueError : PyErr := .valueError "invalid literal for int() with base 10"

/-- `parse_number_string`: comma-separated list whose parts are single
integers or `A-B` inclusive ranges, concatenated in written order. -/
def parse_number_string_parts : List String → Except PyErr (List Int)
  | [] => .ok []
  | p :: ps =>
    if strContains p "-" then
      match pySplitStr p '-' with
      | [a, b] =>
        match pyInt a, pyInt b with
        | some x, some y => (parse_number_string_parts ps).map (fun r => rangeToList x (y + 1) 1 ++ r)
        | _, _ => .error intValueError
      | _ => .error (.valueError "cannot unpack: need exactly 2 values")
    else
      match pyInt p with
      | some x => (parse_number_string_parts ps).map (fun r => x :: r)
      | none => .error intValueError

/-- `parse_number_string(number_string)`. -/
def parse_number_string (s : String) : Except PyErr (List Int) :=
  parse_number_string_parts (pySplitStr s ',')

/-- The host's four-valued `rt.rendTimeType` (1 = single frame, 2 = active
time segment, 3 = explicit range, 4 = picked frames). -/
inductive RendTimeType where
  | single | activeSegment | explicitRange | pickupFrames
deriving DecidableEq

/-- Static host configuration and the oracle streams for one invocation. -/
structure HostCfg where
  /-- `rt.objects` as (custom unique id, node name); `none` models objects
  `get_item_unique_id` raises on (skipped by the `except ValueError: pass`). -/
  objects : List (Option String × String)
  rendTimeType : RendTimeType
  currentTimeFrame : Int
  animStart : Int
  animEnd : Int
  rendStart : Int
  rendEnd : Int
  rendNThFrame : Int
  rendPickupFrames : String
  /-- `str(rt.renderers.current)`. -/
  rendererName : String
  regionEnabled : Bool
  testResEnabled : Bool
  followMouseEnabled : Bool
  debugShadingEnabled : Bool
  /-- State-set names reachable by `masterState.GetDescendant`. -/
  stateSets : List String
  /-- Scene-state names known to `rt.sceneStateMgr`. -/
  sceneStates : List String
  /-- `self.txtDefaultOutputPath.text()`. -/
  defaultOutputPath : String
  /-- `rt.pathConfig.getCurrentProjectFolder()`. -/
  projectFolder : String
  /-- Paths for which `os.path.exists` answers true during the run. -/
  fs : List String
  /-- `self.DEBUG_disable_rendering` (shipped as `False`). -/
  debugDisableRendering : Bool
  /-- Successive `datetime.now().strftime("%y-%m-%dT%H.%M.%S")` results. -/
  clock : Nat → String
  /-- Successive host render-call observations. -/
  renderObs : Nat → RenderObs
  /-- Successive `warn_render_settings_open` results (`none` = window closed). -/
  promptAnswers : Nat → Option Bool

/-- `get_frame_range(frame_range)`. -/
def get_frame_range (cfg : HostCfg) (frame_range : String) : Except PyErr FrameRange :=
  if frame_range = "Default" then
    match cfg.rendTimeType with
    | .single => .ok (.lst [cfg.currentTimeFrame])
    | .activeSegment => .ok (.rng cfg.animStart (cfg.animEnd + 1) 1)
    | .explicitRange => .ok (.rng cfg.rendStart (cfg.rendEnd + 1) cfg.rendNThFrame)
    | .pickupFrames => (parse_number_string cfg.rendPickupFrames).map .lst
  else
    match pySplitStr frame_range ':' with
    | [] => .error (.valueError "unreachable: str.split never returns an empty list")
    | first :: rest =>
      let lastPart := rest.getLast?.getD first
      if first = lastPart then
        match pyInt first with
        | some v => .ok (.lst [v])
        | none => .error intValueError
      else
        match (first :: rest).mapM pyInt with
        | some vals => .ok (.rng (vals.head?.getD 0) (vals.getLast?.getD 0 + 1) 1)
        | none => .error intValueError

/-- `get_frame_range_display(frame_range)`: a step-1 `range` object prints as
`f"{start}-{stop}"`; everything else as a comma-joined list of frames. -/
def get_frame_range_display : FrameRange → String
  | .rng a b s =>
    if s = 1 then intStr a ++ "-" ++ intStr b
    else joinSep ", " ((rangeToList a b s).map intStr)
  | .lst xs => joinSep ", " (xs.map intStr)

/-! ### Resolution, pixel aspect, scene configuration, presets -/

/-- The mutable 3ds Max globals the executor touches. -/
structure HostState where
  renderWidth : Int
  renderHeight : Int
  /-- `rt.renderPixelAspect`; kept as the decimal string the table carries,
  since the engine only moves it between the table and the global. -/
  renderPixelAspect : String
  /-- `rt.renderSceneDialog.isOpen()`. -/
  renderDialogOpen : Bool
deriving DecidableEq

/-- `get_resolution_disp(resolution, original_width, original_height)`:
the resolution as the list `rt.render` will consume plus `'x'.join(...)`. -/
def get_resolution_disp (resolution : String) (original_width original_height : Int) :
    List String × String :=
  if resolution = "Default" then
    let r := [intStr original_width, intStr original_height]
    (r, joinSep "x" r)
  else
    let r := pySplitStr resolution 'x'
    (r, joinSep "x" r)

/-- `get_pixel_aspect(pixel_aspect)`: `Default` reads the global, anything
else writes it — and nothing ever restores it. -/
def get_pixel_aspect (pixel_aspect : String) (h : HostState) : String × HostState :=
  if pixel_aspect = "Default" then (h.renderPixelAspect, h)
  else (pixel_aspect, { h with renderPixelAspect := pixel_aspect })

/-- `self.stateSet_prefix`. -/
def stateSetTag : String := "State Set: "

/-- `self.sceneState_prefix`. -/
def sceneStateTag : String := "Scene State: "

/-- `get_and_set_scene_state(scene_state_disp)`; the activation calls are
host side effects with no observable the engine reads back. -/
def get_and_set_scene_state (cfg : HostCfg) (scene_state_disp : String) :
    Except PyErr (Option String) :=
  if scene_state_disp ≠ "" then
    let notFound : Except PyErr (Option String) :=
      .error (.valueError ("Scene State or State Set \x27" ++ scene_state_disp ++ "\x27 does not exist."))
    if strContains scene_state_disp stateSetTag then
      let potential := pyReplace scene_state_disp stateSetTag ""
      if cfg.stateSets.contains potential then .ok (some potential) else notFound
    else if strContains scene_state_disp sceneStateTag then
      let sceneState := pyReplace scene_state_disp sceneStateTag ""
      if cfg.sceneStates.contains sceneState then .ok (some sceneState) else notFound
    else notFound
  else .ok none

/-- `get_and_set_render_preset(preset_disp)`; the file load is fire-and-forget. -/
def get_and_set_render_preset (preset_disp : String) : Option String :=
  if preset_disp = "" then none else some preset_disp

/-- `get_and_set_layer_preset(layer_preset_disp)`. -/
def get_and_set_layer_preset (layer_preset_disp : String) : Option String :=
  if layer_preset_disp = "" then none else some layer_preset_disp

/-- `get_item_by_id(unique_id)`: scan `rt.objects` for the custom unique id. -/
def get_item_by_id (objects : List (Option String × String)) (unique_id : String) :
    Except PyErr String :=
  match objects.find? (fun o => decide (o.1 = some unique_id)) with
  | some o => .ok o.2
  | none =>
    .error (.valueError ("No object could not be found by unique ID \"" ++ unique_id ++ "\""))

/-! ### `get_valid_filename` (template resolver) -/

/-- The `item_values` keys `get_valid_filename` reads: `Name`, `Camera`, the
resolved `Scene_State` (`None` when the entry carries none), the preset
columns, `Resolution_Display` and `Pixel_Aspect`. -/
structure RowValues where
  Name : String
  Camera : String
  Scene_State : Option String
  Render_Preset : String
  Layer_Preset : String
  Resolution_Display : String
  Pixel_Aspect : String
deriving DecidableEq

/-- The `Default` sentinel substitution: the starting template. -/
def startingName (name : String) : String :=
  if name = "Default" then "\x7bCamera\x7d" else name

/-- The `replace_flags` table, in the source's (insertion) order. -/
def replaceFlags (vals : RowValues) : List (String × Option String) :=
  [("\x7bCamera\x7d", some (pyReplace vals.Camera "_VRayPhysicalCamera" "")),
   ("\x7bScene State\x7d", vals.Scene_State),
   ("\x7bState Set\x7d", vals.Scene_State),
   ("\x7bRender Preset\x7d", some vals.Render_Preset),
   ("\x7bLayer Preset\x7d", some vals.Layer_Preset),
   ("\x7bResolution\x7d", some vals.Resolution_Display),
   ("\x7bPixel Aspect\x7d", some vals.Pixel_Aspect)]

/-- One step of the substitution loop: substitute only if the placeholder
occurs case-insensitively in the current name; an empty/`None`/"default"
value substitutes as `""` and sets the blank-value flag. -/
def substituteFlag (acc : String × Bool) (flag : String × Option String) : String × Bool :=
  let (render_name, blank_values) := acc
  if ciContains render_name flag.1 then
    let v := flag.2.getD ""
    if pyLower v = "default" ∨ v = "" then
      (ciReplace render_name flag.1 "", true)
    else
      (ciReplace render_name flag.1 v, blank_values)
  else acc

/-- The substitution part of `get_valid_filename`: the resolved name and the
`blank_values` flag. -/
def resolveName (vals : RowValues) : String × Bool :=
  (replaceFlags vals).foldl substituteFlag (startingName vals.Name, false)

/-- The reserved characters of `'\/:*?<>|"\\'`. -/
def invalidNameChars : List Char := ['\\', '/', ':', '*', '?', '<', '>', '|', '"']

/-- The final validation of `get_valid_filename`: nonempty, no reserved
character, no leading dot. -/
def nameIsValid (render_name : String) : Bool :=
  !(render_name = "") && !(render_name.data.any (fun c => invalidNameChars.contains c))
    && !(render_name.data.head? == some '.')

/-- `get_valid_filename(item_values)`.  In pre-check mode a blank-value
substitution asks the user to confirm (consuming one prompt answer); a
negative or dismissed prompt raises `ValueError`.  Returns the next prompt
index and the validated name. -/
def get_valid_filename (pre_check : Bool) (answers : Nat → Option Bool) (pidx : Nat)
    (vals : RowValues) : Nat × Except PyErr String :=
  let (render_name, blank_values) := resolveName vals
  let validated : Except PyErr String :=
    if nameIsValid render_name then .ok render_name
    else .error (.valueError ("Image name invalid!: " ++ render_name))
  if blank_values && pre_check then
    let continue_with_render := answers pidx
    if continue_with_render = some true then (pidx + 1, validated)
    else
      (pidx + 1, .error (.valueError
        ("Canceled because of blank replacement flags in \"" ++ vals.Name ++ "\"")))
  else (pidx, validated)

/-! ### `get_output_path` (output-path allocator) -/

/-- The output-path column sentinel `DEFAULT_PATH_TEXT`. -/
def DEFAULT_PATH_TEXT : String := "Default Path + Name"

/-- `get_output_path(output_path, name)`.  In the literal-path branch the
source never assigns `output_path_png`, so the unconditional
`output_path_png = convert_path_to_absolute(output_path_png)` raises
`UnboundLocalError` before the directory-existence check is reached. -/
def get_output_path (cfg : HostCfg) (output_path name : String) :
    Except PyErr (String × String) :=
  let branches :=
    if output_path = DEFAULT_PATH_TEXT then
      let path := cfg.defaultOutputPath
      (path, pyJoin path (name ++ ".exr"), some (pyJoin path (name ++ ".png")))
    else
      (pyDirname output_path, output_path, (none : Option String))
  let path := convert_path_to_absolute cfg.projectFolder branches.1
  let output_path_exr := convert_path_to_absolute cfg.projectFolder branches.2.1
  match branches.2.2 with
  | none => .error (.unboundLocal "output_path_png")
  | some png =>
    let output_path_png := convert_path_to_absolute cfg.projectFolder png
    if !(cfg.fs.contains path) then
      .error (.valueError ("Output directory doesnt exist!: " ++ path))
    else .ok (output_path_exr, output_path_png)

/-! ### `prevent_duplicate_files` (duplicate avoidance) -/

/-- The duplicate suffix: empty on first use, `" (N)"` afterwards. -/
def dupeSuffix : Nat → String
  | 0 => ""
  | n + 1 => " (" ++ natStr (n + 1) ++ ")"

/-- The candidate file path probed for duplicate number `n`:
`{stem}_{frame:04d}_{time}{suffix}{ext}` joined onto the directory. -/
def dupeCandidate (directory stem : String) (frame : Int) (time ext : String) (n : Nat) :
    String :=
  pyJoin directory (stem ++ "_" ++ format04d frame ++ "_" ++ time ++ dupeSuffix n ++ ext)

/-- The `while True` probe loop: return the first `n ≥ start` whose candidate
is free.  `free n` decides `not os.path.exists(candidate n)`.  The source
loop is unbounded; `dupeSearch_exits` below shows fuel `fs.length + 1` always
finds a free candidate first, so this is the exact loop. -/
def dupeSearch (free : Nat → Bool) : Nat → Nat → Nat
  | 0, n => n
  | fuel + 1, n => if free n then n else dupeSearch free fuel (n + 1)

/-- The duplicate number `prevent_duplicate_files` settles on. -/
def dupe_index (fs : List String) (directory stem : String) (frame : Int) (time ext : String) :
    Nat :=
  dupeSearch (fun n => !(fs.contains (dupeCandidate directory stem frame time ext n)))
    (fs.length + 1) 0

/-- `prevent_duplicate_files(output_path, frame, formatted_time)`: split the
path, probe duplicate numbers upward until free, and in pre-check mode show
an acknowledge-only prompt when a collision was found.  Returns
`(file_path, file_name, next prompt index)`. -/
def prevent_duplicate_files (fs : List String) (pre_check : Bool) (pidx : Nat)
    (output_path : String) (frame : Int) (formatted_time : String) :
    String × String × Nat :=
  let (directory, file_name) := py_os_split output_path
  let (filename, file_extension) := py_splitext file_name
  let dupe_count := dupe_index fs directory filename frame formatted_time file_extension
  let file_path := dupeCandidate directory filename frame formatted_time file_extension dupe_count
  let final_name := (py_os_split file_path).2
  if pre_check && decide (0 < dupe_count) then (file_path, final_name, pidx + 1)
  else (file_path, final_name, pidx)

/-! ### `check_VFB_settings` (precondition validator) -/

/-- The warning message built from the four developer-toggle flags, in the
source's dictionary order. -/
def problemSettingsMessage (cfg : HostCfg) : Option String :=
  let msgs :=
    (if cfg.regionEnabled then ["Region render"] else []) ++
    (if cfg.testResEnabled then ["Test resolution"] else []) ++
    (if cfg.followMouseEnabled then ["Follow mouse"] else []) ++
    (if cfg.debugShadingEnabled then ["Debug shading"] else [])
  match msgs with
  | [] => none
  | [m] => some (m ++ " is enabled")
  | [a, b] => some (a ++ " and " ++ b ++ " are enabled")
  | ms => some (joinSep ", " ms.dropLast ++ ", and " ++ (ms.getLast?.getD "") ++ " are enabled")

/-- `check_VFB_settings()`: returns `(continue_with_render,
close_renderSceneDialog)` and the updated host state / prompt index.  The
dialog is committed when already open, opened (to be closed later) when not;
warnings gate progress only in pre-check mode. -/
def check_VFB_settings (cfg : HostCfg) (pre_check : Bool) (h : HostState) (pidx : Nat) :
    Bool × Bool × HostState × Nat :=
  let branch :=
    if strContains cfg.rendererName "V_Ray" then
      let msg := problemSettingsMessage cfg
      if h.renderDialogOpen then (msg, false, h)
      else (msg, true, { h with renderDialogOpen := true })
    else (some "V-Ray is not set as current renderer!", false, h)
  if branch.1.isSome && pre_check then
    let continue_with_render := cfg.promptAnswers pidx
    ((continue_with_render = some true : Bool), branch.2.1, branch.2.2, pidx + 1)
  else (true, branch.2.1, branch.2.2, pidx)

/-! ### The queue executor (`main` inside `start_batch_render`) -/

/-- One row of the render queue as `get_entry_values` returns it. -/
structure Entry where
  Use : Bool
  Name : String
  Camera : String
  /-- The hidden stable camera identity of the camera column. -/
  Camera_Hidden : String
  Output_Path : String
  Range : String
  Resolution : String
  Pixel_Aspect : String
  Scene_State : String
  Render_Preset : String
  Layer_Preset : String
deriving DecidableEq

/-- Trace record of one commit-mode `do_render` call. -/
structure RenderCall where
  row : Nat
  frame : Int
  camera : String
  outputfile_exr : String
  pixel_aspect : String
  result : Nat
deriving DecidableEq

/-- Trace record of the file names allocated for one frame. -/
structure FrameFile where
  row : Nat
  frame : Int
  formatted_time : String
  outputfile_exr : String
  outputfile_png : String
deriving DecidableEq

/-- The world one phase threads along: host globals, the consumption indices
of the oracle streams, and the observable traces. -/
structure World where
  host : HostState
  clockIdx : Nat
  renderIdx : Nat
  promptIdx : Nat
  files : List FrameFile
  renders : List RenderCall

/-- A fresh world for a run. -/
def initialWorld (h : HostState) : World := ⟨h, 0, 0, 0, [], []⟩

/-- The local variables of one `main()` invocation. -/
structure LoopSt where
  canceled_renders : Nat
  total_rows_to_render : Nat
  rendered_rows : Nat
  python_render_error : Bool
  render_queue_canceled : Bool
deriving DecidableEq

/-- `max_canceled_before_exit = 2` ("Set to 0 to disable canceling whole
queue (not recommended)"). -/
def max_canceled_before_exit : Nat := 2

/-- `max_canceled_before_exit and canceled_renders >= max_canceled_before_exit`. -/
def thresholdHit (st : LoopSt) : Bool :=
  (max_canceled_before_exit != 0) && decide (max_canceled_before_exit ≤ st.canceled_renders)

/-- How one entry's processing ended: normally, with a `ValueError` the
`except` clause catches, with an uncatchable exception, or with the
queue-cancellation `break`. -/
inductive RowExit where
  | normal
  | caught (msg : String)
  | fatal (e : PyErr)
  | breakQueue
deriving DecidableEq

/-- The per-frame loop of `main` (`for x, frame in enumerate(frame_range)`):
allocate duplicate-free EXR/PNG names, render (commit mode only), count
cancellations, and stop as soon as the cancellation threshold is reached.
`rt.render` is modelled as also writing the passed output size into the
global render width/height (the reason the source restores them after the
loop). -/
def frame_loop (cfg : HostCfg) (pre_check : Bool) (row_id : Nat) (camera : String)
    (output_path_exr output_path_png pixel_aspect : String) (resolution : List String)
    (formatted_time : String) :
    List Int → World → LoopSt → World × LoopSt × Option PyErr
  | [], w, st => (w, st, none)
  | frame :: rest, w, st =>
    let r1 := prevent_duplicate_files cfg.fs pre_check w.promptIdx output_path_exr frame formatted_time
    let r2 := prevent_duplicate_files cfg.fs pre_check r1.2.2 output_path_png frame formatted_time
    let w := { w with
      promptIdx := r2.2.2,
      files := w.files ++ [⟨row_id, frame, formatted_time, r1.1, r2.1⟩] }
    if pre_check then
      if thresholdHit st then (w, st, none)
      else frame_loop cfg pre_check row_id camera output_path_exr output_path_png pixel_aspect
        resolution formatted_time rest w st
    else if cfg.debugDisableRendering then
      if thresholdHit st then (w, st, none)
      else frame_loop cfg pre_check row_id camera output_path_exr output_path_png pixel_aspect
        resolution formatted_time rest w st
    else
      match resolution.get? 0 with
      | none => (w, st, some (.indexError "list index out of range"))
      | some s0 =>
        match pyInt s0 with
        | none => (w, st, some intValueError)
        | some image_width =>
          match resolution.get? 1 with
          | none => (w, st, some (.indexError "list index out of range"))
          | some s1 =>
            match pyInt s1 with
            | none => (w, st, some intValueError)
            | some image_height =>
              let render_result := do_render (cfg.renderObs w.renderIdx)
              let w := { w with
                renderIdx := w.renderIdx + 1,
                host := { w.host with
                  renderWidth := image_width,
                  renderHeight := image_height },
                renders := w.renders ++
                  [⟨row_id, frame, camera, r1.1, pixel_aspect, render_result⟩] }
              let st := if render_result = 1 then
                  { st with canceled_renders := st.canceled_renders + 1 }
                else st
              if thresholdHit st then (w, st, none)
              else frame_loop cfg pre_check row_id camera output_path_exr output_path_png
                pixel_aspect resolution formatted_time rest w st

/-- The body of the `try` block for one row, straight-lining the source's
statement order; the returned `RowExit` tells the row loop what the
`except ValueError` handler would see. -/
def process_row (cfg : HostCfg) (pre_check : Bool) (row_id : Nat) (e : Entry)
    (w : World) (st : LoopSt) : World × LoopSt × RowExit :=
  if !e.Use then (w, st, .normal)
  else
    let st := if pre_check then
        { st with total_rows_to_render := st.total_rows_to_render + 1 }
      else st
    match get_item_by_id cfg.objects e.Camera_Hidden with
    | .error (.valueError m) => (w, st, .caught m)
    | .error err => (w, st, .fatal err)
    | .ok camera =>
      match get_frame_range cfg e.Range with
      | .error (.valueError m) => (w, st, .caught m)
      | .error err => (w, st, .fatal err)
      | .ok frame_range =>
        let _frame_range_disp := get_frame_range_display frame_range
        let original_renderWidth := w.host.renderWidth
        let original_renderHeight := w.host.renderHeight
        let rd := get_resolution_disp e.Resolution original_renderWidth original_renderHeight
        let pa := get_pixel_aspect e.Pixel_Aspect w.host
        let w := { w with host := pa.2 }
        match get_and_set_scene_state cfg e.Scene_State with
        | .error (.valueError m) => (w, st, .caught m)
        | .error err => (w, st, .fatal err)
        | .ok scene_state_disp =>
          let _preset_disp := get_and_set_render_preset e.Render_Preset
          let _layer_preset_disp := get_and_set_layer_preset e.Layer_Preset
          let vals : RowValues :=
            ⟨e.Name, e.Camera, scene_state_disp, e.Render_Preset, e.Layer_Preset, rd.2,
             e.Pixel_Aspect⟩
          let nameRes := get_valid_filename pre_check cfg.promptAnswers w.promptIdx vals
          let w := { w with promptIdx := nameRes.1 }
          match nameRes.2 with
          | .error (.valueError m) => (w, st, .caught m)
          | .error err => (w, st, .fatal err)
          | .ok name =>
            match get_output_path cfg e.Output_Path name with
            | .error (.valueError m) => (w, st, .caught m)
            | .error err => (w, st, .fatal err)
            | .ok paths =>
              let st := { st with rendered_rows := st.rendered_rows + 1 }
              let formatted_time := cfg.clock w.clockIdx
              let w := { w with clockIdx := w.clockIdx + 1 }
              match frame_loop cfg pre_check row_id camera paths.1 paths.2 pa.1 rd.1
                  formatted_time frame_range.toList w st with
              | (w, st, some (.valueError m)) => (w, st, .caught m)
              | (w, st, some err) => (w, st, .fatal err)
              | (w, st, none) =>
                let w := { w with host := { w.host with
                  renderWidth := original_renderWidth,
                  renderHeight := original_renderHeight } }
                if thresholdHit st && !pre_check then
                  (w, { st with render_queue_canceled := true }, .breakQueue)
                else (w, st, .normal)

/-- The row loop (`for row_id in range(total_rows)`) with its
`except ValueError` handler: a caught error sets `python_render_error` and
continues; any other exception propagates; the cancellation `break` stops. -/
def render_rows_loop (cfg : HostCfg) (pre_check : Bool) :
    List (Nat × Entry) → World → LoopSt → World × LoopSt × Option PyErr
  | [], w, st => (w, st, none)
  | (row_id, e) :: rest, w, st =>
    match process_row cfg pre_check row_id e w st with
    | (w, st, .normal) => render_rows_loop cfg pre_check rest w st
    | (w, st, .caught _m) =>
      render_rows_loop cfg pre_check rest w { st with python_render_error := true }
    | (w, st, .fatal err) => (w, st, some err)
    | (w, st, .breakQueue) => (w, st, none)

/-- A Python return value of `main`: `None`, a bool, or the row count. -/
inductive PyRet where
  | noneV
  | boolV (b : Bool)
  | intV (n : Nat)
deriving DecidableEq

/-- Python truthiness of a `main` return value. -/
def pyTruthyRet : PyRet → Bool
  | .noneV => false
  | .boolV b => b
  | .intV n => n != 0

/-- Result of one `main()` invocation. -/
structure PhaseResult where
  world : World
  locals : LoopSt
  ret : Except PyErr PyRet

/-- One `main()` invocation for a fixed `pre_check` mode (without the
commit-mode recursive pre-check call): `check_VFB_settings`, the row loop,
the dialog close, and the return-value selection.  `total0` seeds
`total_rows_to_render` (0 in pre-check; the pre-check count in commit).  An
uncaught exception skips the dialog close, exactly as in the source. -/
def main_phase (cfg : HostCfg) (pre_check : Bool) (entries : List Entry) (w : World)
    (total0 : Nat) : PhaseResult :=
  let vfb := check_VFB_settings cfg pre_check w.host w.promptIdx
  let w := { w with host := vfb.2.2.1, promptIdx := vfb.2.2.2 }
  let st0 : LoopSt := ⟨0, total0, 0, false, false⟩
  if !vfb.1 then ⟨w, st0, .ok .noneV⟩
  else
    match render_rows_loop cfg pre_check entries.enum w st0 with
    | (w, st, some err) => ⟨w, st, .error err⟩
    | (w, st, none) =>
      let w := if vfb.2.1 then
          { w with host := { w.host with renderDialogOpen := false } }
        else w
      let ret : Except PyErr PyRet :=
        if !pre_check && !st.render_queue_canceled then .ok (.boolV true)
        else if pre_check && !st.python_render_error then .ok (.intV st.total_rows_to_render)
        else if pre_check && st.python_render_error then .ok (.boolV false)
        else .ok .noneV
      ⟨w, st, ret⟩

/-- `start_batch_render(pre_check)`: commit mode first runs the whole
pre-check invocation (sharing host state and oracle streams) and starts the
real pass only on a truthy pre-check result. -/
def start_batch_render (cfg : HostCfg) (pre_check : Bool) (entries : List Entry)
    (w : World) : PhaseResult :=
  if pre_check then main_phase cfg true entries w 0
  else
    let pre := main_phase cfg true entries w 0
    match pre.ret with
    | .error _ => pre
    | .ok r =>
      if !pyTruthyRet r then { pre with ret := .ok .noneV }
      else
        main_phase cfg false entries pre.world
          (match r with | .intV n => n | _ => 0)

/-! ### Trace observables used by the verification statements -/

/-- Number of canceled outcomes (`render_result == 1`) in a render trace. -/
def countCanceled (l : List RenderCall) : Nat :=
  (l.filter (fun c => c.result == 1)).length

/-- Every render call in the trace was attempted while the cancellation
counter was still below the abort threshold. -/
def belowThresholdTrace (l : List RenderCall) : Prop :=
  ∀ i, i < l.length → countCanceled (l.take i) < max_canceled_before_exit

/-- All allocated frame files of one row share a single formatted-time
string. -/
def rowTimesConsistent (files : List FrameFile) : Prop :=
  ∀ f ∈ files, ∀ g ∈ files, f.row = g.row → f.formatted_time = g.formatted_time

/-! ### Sample host and queue used as concrete inputs -/

/-- A host with a 640×480 global render size, pixel aspect `"1.0"` and the
render-settings dialog closed. -/
def host0 : HostState := ⟨640, 480, "1.0", false⟩

/-- A well-behaved host configuration: V-Ray active, all developer toggles
off, two resolvable cameras, an existing default output directory, a clock
whose formatted timestamps differ from tick to tick, and renders that
succeed. -/
def cfg0 : HostCfg where
  objects := [(some "id1", "Cam01"), (some "id3", "Cam03")]
  rendTimeType := .single
  currentTimeFrame := 0
  animStart := 0
  animEnd := 0
  rendStart := 0
  rendEnd := 0
  rendNThFrame := 1
  rendPickupFrames := ""
  rendererName := "V_Ray_GPU"
  regionEnabled := false
  testResEnabled := false
  followMouseEnabled := false
  debugShadingEnabled := false
  stateSets := []
  sceneStates := []
  defaultOutputPath := "C:\\out"
  projectFolder := "C:\\proj"
  fs := ["C:\\out"]
  debugDisableRendering := false
  clock := fun i => "25-01-01T00.00.0" ++ natStr i
  renderObs := fun _ => ⟨false, true, 0, [], 0⟩
  promptAnswers := fun _ => some true

/-- Like `cfg0`, but the user cancels every render call. -/
def cfgCanceled : HostCfg := { cfg0 with renderObs := fun _ => ⟨true, false, 0, [], 0⟩ }

/-- An enabled single-frame entry on camera `Cam01`, default everything. -/
def entry1 : Entry :=
  ⟨true, "Default", "Cam01", "id1", DEFAULT_PATH_TEXT, "1:1", "640x480", "Default", "", "", ""⟩

/-- Same entry but with a camera identity no host object carries. -/
def entryBadCamera : Entry := { entry1 with Camera := "Cam02", Camera_Hidden := "badid" }

/-- An enabled entry on the second resolvable camera. -/
def entry3 : Entry := { entry1 with Camera := "Cam03", Camera_Hidden := "id3" }

/-- `entry1` with a pixel-aspect override. -/
def entryPA : Entry := { entry1 with Pixel_Aspect := "2.0" }

/-- `entry1` with a three-frame range. -/
def entryFrames : Entry := { entry1 with Range := "1:3" }

/-! ## Theorems -/

/-! ### String-manipulation lemmas -/

theorem replaceAux_self_or_subset (fuel : Nat) (s pat repl : List Char) :
    replaceAux fuel s pat repl = s ∨ repl ⊆ replaceAux fuel s pat repl := by
  induction fuel generalizing s with
  | zero => left; rfl
  | succ f ih =>
    cases s with
    | nil => left; rfl
    | cons c rest =>
      simp only [replaceAux]
      by_cases h : pat ≠ [] ∧ pat.isPrefixOf (c :: rest)
      · rw [if_pos h]
        right
        exact List.subset_append_left _ _
      · rw [if_neg h]
        rcases ih rest with h1 | h1
        · left; rw [h1]
        · right; exact fun x hx => List.mem_cons_of_mem c (h1 hx)

theorem containsSub_mem {n h : List Char} (hc : containsSub n h = true) {c : Char}
    (hm : c ∈ n) : c ∈ h := by
  induction h with
  | nil =>
    simp only [containsSub, List.isEmpty_iff] at hc
    subst hc; cases hm
  | cons x xs ih =>
    simp only [containsSub, Bool.or_eq_true] at hc
    rcases hc with hc | hc
    · exact ((List.isPrefixOf_iff_prefix).1 hc).sublist.subset hm
    · exact List.mem_cons_of_mem _ (ih hc)

theorem mem_dropWhile_of_mem {α : Type} {p : α → Bool} {c : α} {l : List α}
    (hm : c ∈ l) (hp : p c = false) : c ∈ l.dropWhile p := by
  induction l with
  | nil => cases hm
  | cons x xs ih =>
    by_cases hx : p x
    · simp only [List.dropWhile, hx]
      rcases List.mem_cons.1 hm with rfl | hm2
      · rw [hx] at hp; cases hp
      · exact ih hm2
    · simp only [List.dropWhile, Bool.not_eq_true] at hx ⊢
      rw [hx]
      exact hm

theorem stripChars_ne_nil {l : List Char} {c : Char} (hm : c ∈ l)
    (hw : c.isWhitespace = false) : stripChars l ≠ [] := by
  unfold stripChars
  have h1 : c ∈ l.dropWhile Char.isWhitespace := mem_dropWhile_of_mem hm hw
  have h2 := List.mem_reverse.2 h1
  have h3 := mem_dropWhile_of_mem h2 hw
  intro he
  rw [List.reverse_eq_nil_iff] at he
  rw [he] at h3
  cases h3

theorem pyStrip_mk_ne_empty {l : List Char} {c : Char} (hm : c ∈ l)
    (hw : c.isWhitespace = false) : pyStrip (String.mk l) ≠ "" := by
  unfold pyStrip
  intro h
  have h2 : stripChars l = [] := congrArg String.data h
  exact stripChars_ne_nil hm hw h2

theorem pyReplace_strip_ne_empty {s pat : String} {c : Char} (hm : c ∈ s.data)
    (hw : c.isWhitespace = false) : pyStrip (pyReplace s pat "Error") ≠ "" := by
  unfold pyReplace
  rcases replaceAux_self_or_subset s.data.length s.data pat.data "Error".data with h | h
  · rw [h]
    exact pyStrip_mk_ne_empty hm hw
  · exact pyStrip_mk_ne_empty (h (by decide : 'E' ∈ "Error".data)) (by decide)

theorem were_there_render_errors_truthy {t0 : Int} {log : List LogLine}
    (hx : ∃ l ∈ log, t0 ≤ l.ts ∧ strContains l.text "error: " = true) :
    pyTruthyStr (were_there_render_errors t0 log) = true := by
  unfold were_there_render_errors
  have hsome : (log.find? (fun l => decide (t0 ≤ l.ts) && strContains l.text "error: ")).isSome := by
    rw [List.find?_isSome]
    obtain ⟨l, hl, h1, h2⟩ := hx
    exact ⟨l, hl, by simp [h1, h2]⟩
  obtain ⟨l0, hfind⟩ := Option.isSome_iff_exists.1 hsome
  rw [hfind]
  have hp := List.find?_some hfind
  simp only [Bool.and_eq_true, decide_eq_true_eq] at hp
  have hmem : ('e' : Char) ∈ l0.text.data :=
    containsSub_mem hp.2 (by decide : 'e' ∈ "error: ".data)
  have hne := @pyReplace_strip_ne_empty l0.text (l0.tsRaw ++ " error") 'e' hmem (by decide)
  simp only [pyTruthyStr, ne_eq, decide_eq_true_eq]
  exact hne

/-! ### Lemmas about `natStr`, `dupeSuffix`, `dupeCandidate` and the probe
loop, leading to C8 -/

theorem string_data_ext {s t : String} (h : s.data = t.data) : s = t :=
  congrArg String.mk h

theorem string_append_cancel_left {a x y : String} (h : a ++ x = a ++ y) : x = y := by
  have h2 := congrArg String.data h
  simp only [String.data_append] at h2
  exact string_data_ext (List.append_cancel_left h2)

theorem string_append_cancel_right {x y b : String} (h : x ++ b = y ++ b) : x = y := by
  have h2 := congrArg String.data h
  simp only [String.data_append] at h2
  exact string_data_ext (List.append_cancel_right h2)

theorem natStrAux_append (fuel : Nat) : ∀ (n : Nat) (acc : List Char),
    natStrAux fuel n acc = natStrAux fuel n [] ++ acc := by
  induction fuel with
  | zero => intro n acc; rfl
  | succ f ih =>
    intro n acc
    simp only [natStrAux]
    by_cases h : n / 10 = 0
    · simp [h]
    · simp only [h, if_false]
      rw [ih (n / 10) [Nat.digitChar (n % 10)], ih (n / 10) (Nat.digitChar (n % 10) :: acc)]
      simp

theorem valOfDigits_append_digit (l : List Char) (c : Char) :
    valOfDigits (l ++ [c]) = 10 * valOfDigits l + charVal c := by
  simp [valOfDigits, List.foldl_append]

theorem charVal_digitChar : ∀ m, m < 10 → charVal (Nat.digitChar m) = m := by decide

theorem natStrAux_val : ∀ fuel n, n < fuel → valOfDigits (natStrAux fuel n []) = n := by
  intro fuel
  induction fuel with
  | zero => intro n h; omega
  | succ f ih =>
    intro n h
    simp only [natStrAux]
    by_cases h10 : n / 10 = 0
    · have hn : n < 10 := (Nat.div_eq_zero_iff (by norm_num)).1 h10
      have hv : valOfDigits [Nat.digitChar (n % 10)] = charVal (Nat.digitChar (n % 10)) := by
        simp [valOfDigits]
      rw [if_pos h10, hv, charVal_digitChar (n % 10) (Nat.mod_lt _ (by norm_num)),
        Nat.mod_eq_of_lt hn]
    · have hne : n ≠ 0 := fun he => h10 (by simp [he])
      have hdiv : n / 10 < n := Nat.div_lt_self (by omega) (by norm_num)
      have hf : n / 10 < f := by omega
      rw [if_neg h10, natStrAux_append, valOfDigits_append_digit, ih (n / 10) hf,
        charVal_digitChar (n % 10) (Nat.mod_lt _ (by omega))]
      omega

theorem natStr_inj {m n : Nat} (h : natStr m = natStr n) : m = n := by
  have h2 : natStrAux (m + 1) m [] = natStrAux (n + 1) n [] := congrArg String.data h
  have hm := natStrAux_val (m + 1) m (Nat.lt_succ_self m)
  rw [h2, natStrAux_val (n + 1) n (Nat.lt_succ_self n)] at hm
  omega

theorem dupeSuffix_inj : Function.Injective dupeSuffix := by
  intro m n h
  match m, n with
  | 0, 0 => rfl
  | 0, k + 1 =>
    have hd := congrArg String.data h
    simp only [dupeSuffix, String.data_append] at hd
    cases hd
  | k + 1, 0 =>
    have hd := congrArg String.data h
    simp only [dupeSuffix, String.data_append] at hd
    cases hd
  | k + 1, j + 1 =>
    have hd := congrArg String.data h
    simp only [dupeSuffix, String.data_append, List.cons_append, List.nil_append,
      List.cons.injEq, true_and] at hd
    have hdata : (natStr (k + 1)).data ++ ")".data = (natStr (j + 1)).data ++ ")".data := by
      simpa using hd
    have := natStr_inj (string_data_ext (List.append_cancel_right hdata) :
      natStr (k + 1) = natStr (j + 1))
    omega

theorem isAbsPathData_congr {l₁ l₂ : List Char} (h : l₁.take 2 = l₂.take 2) :
    isAbsPathData l₁ = isAbsPathData l₂ := by
  cases l₁ with
  | nil =>
    cases l₂ with
    | nil => rfl
    | cons c r => simp [List.take] at h
  | cons c r =>
    cases l₂ with
    | nil => simp [List.take] at h
    | cons d s =>
      simp only [List.take, List.cons.injEq] at h
      obtain ⟨rfl, h2⟩ := h
      cases r with
      | nil =>
        cases s with
        | nil => rfl
        | cons x xs => simp [List.take] at h2
      | cons x xs =>
        cases s with
        | nil => simp [List.take] at h2
        | cons y ys =>
          simp only [List.take, List.cons.injEq] at h2
          obtain ⟨rfl, _⟩ := h2
          rfl

theorem take_append_of_le {α : Type} (n : Nat) : ∀ (l₁ l₂ : List α), n ≤ l₁.length →
    (l₁ ++ l₂).take n = l₁.take n := by
  induction n with
  | zero => intro l₁ l₂ _; simp
  | succ k ih =>
    intro l₁ l₂ h
    cases l₁ with
    | nil => simp at h
    | cons c r =>
      simp only [List.cons_append, List.take, List.cons.injEq, true_and]
      exact ih r l₂ (by simpa using h)

theorem pyJoin_inj {a x y : String} (habs : isAbsPath x = isAbsPath y)
    (h : pyJoin a x = pyJoin a y) : x = y := by
  unfold pyJoin at h
  rw [habs] at h
  by_cases h1 : isAbsPath y = true
  · rwa [if_pos h1, if_pos h1] at h
  · rw [if_neg h1, if_neg h1] at h
    by_cases h2 : a = ""
    · rwa [if_pos h2, if_pos h2] at h
    · rw [if_neg h2, if_neg h2] at h
      by_cases h3 : (a.data.getLast?).any isSepChar = true
      · rw [if_pos h3, if_pos h3] at h
        exact string_append_cancel_left h
      · rw [if_neg h3, if_neg h3] at h
        exact string_append_cancel_left h

theorem dupeCandidate_inj (dir stem : String) (frame : Int) (time ext : String) :
    Function.Injective (dupeCandidate dir stem frame time ext) := by
  intro m n h
  have hsfx : dupeSuffix m = dupeSuffix n := by
    set B := stem ++ "_" ++ format04d frame ++ "_" ++ time with hB
    have hbody : ∀ k, stem ++ "_" ++ format04d frame ++ "_" ++ time ++ dupeSuffix k ++ ext
        = B ++ (dupeSuffix k ++ ext) := by
      intro k
      rw [hB, String.append_assoc]
    have hBlen : 2 ≤ B.data.length := by
      rw [hB]
      simp only [String.data_append, List.length_append]
      have h1 : (['_'] : List Char).length = 1 := rfl
      have h2 : ("_" : String).data.length = 1 := by decide
      omega
    have habs : ∀ k, isAbsPath (B ++ (dupeSuffix k ++ ext)) = isAbsPath B := by
      intro k
      unfold isAbsPath
      apply isAbsPathData_congr
      rw [String.data_append]
      exact take_append_of_le 2 _ _ hBlen
    have habs' : isAbsPath (B ++ (dupeSuffix m ++ ext))
        = isAbsPath (B ++ (dupeSuffix n ++ ext)) := by rw [habs m, habs n]
    have hb : B ++ (dupeSuffix m ++ ext) = B ++ (dupeSuffix n ++ ext) := by
      apply pyJoin_inj habs'
      unfold dupeCandidate at h
      rw [hbody m, hbody n] at h
      exact h
    have hse : dupeSuffix m ++ ext = dupeSuffix n ++ ext := string_append_cancel_left hb
    exact string_append_cancel_right hse
  exact dupeSuffix_inj hsfx

theorem exists_free_candidate (fs : List String) (f : Nat → String)
    (hf : Function.Injective f) :
    ∃ m, m < fs.length + 1 ∧ fs.contains (f m) = false := by
  by_contra hcon
  push_neg at hcon
  have hc2 : ∀ m, m < fs.length + 1 → fs.contains (f m) = true := by
    intro m hm
    cases hb : fs.contains (f m) with
    | false => exact absurd hb (hcon m hm)
    | true => rfl
  have hsub : ∀ a ∈ Finset.range (fs.length + 1), f a ∈ fs.toFinset := by
    intro a ha
    rw [List.mem_toFinset]
    exact List.elem_iff.1 (hc2 a (Finset.mem_range.1 ha))
  have hcard := Finset.card_le_card_of_injOn f hsub (fun a _ b _ hab => hf hab)
  rw [Finset.card_range] at hcard
  have hle := fs.toFinset_card_le
  omega

theorem dupeSearch_spec (free : Nat → Bool) :
    ∀ (fuel start : Nat), (∃ m, start ≤ m ∧ m < start + fuel ∧ free m = true) →
      free (dupeSearch free fuel start) = true ∧
      start ≤ dupeSearch free fuel start ∧
      ∀ k, start ≤ k → k < dupeSearch free fuel start → free k = false := by
  intro fuel
  induction fuel with
  | zero =>
    intro start h
    obtain ⟨m, h1, h2, _⟩ := h
    omega
  | succ f ih =>
    intro start hx
    simp only [dupeSearch]
    by_cases hs : free start = true
    · rw [if_pos hs]
      exact ⟨hs, le_refl _, fun k hk1 hk2 => absurd hk2 (by omega)⟩
    · rw [if_neg hs]
      have hx' : ∃ m, start + 1 ≤ m ∧ m < (start + 1) + f ∧ free m = true := by
        obtain ⟨m, h1, h2, h3⟩ := hx
        have hms : m ≠ start := fun he => hs (he ▸ h3)
        exact ⟨m, by omega, by omega, h3⟩
      obtain ⟨g1, g2, g3⟩ := ih (start + 1) hx'
      refine ⟨g1, by omega, ?_⟩
      intro k hk1 hk2
      rcases eq_or_lt_of_le hk1 with rfl | hlt
      · exact Bool.eq_false_iff.mpr hs
      · exact g3 k (by omega) hk2

/-- C8: for every (directory, stem, frame, run-timestamp) and filesystem,
the probe settles on the least duplicate number whose candidate
`{stem}_{frame:04d}_{run_timestamp}{suffix}{ext}` does not yet exist: the
chosen candidate is free, every smaller duplicate number's candidate exists
(the Nth collision carries suffix `" (N)"`), and when the suffix-free name is
free it is chosen unchanged. -/
theorem C8_duplicate_probe (fs : List String) (dir stem : String) (frame : Int)
    (time ext : String) :
    fs.contains (dupeCandidate dir stem frame time ext
      (dupe_index fs dir stem frame time ext)) = false ∧
    (∀ m, m < dupe_index fs dir stem frame time ext →
      fs.contains (dupeCandidate dir stem frame time ext m) = true) ∧
    (fs.contains (dupeCandidate dir stem frame time ext 0) = false →
      dupe_index fs dir stem frame time ext = 0) := by
  unfold dupe_index
  obtain ⟨m, hm1, hm2⟩ := exists_free_candidate fs _ (dupeCandidate_inj dir stem frame time ext)
  have hex : ∃ k, 0 ≤ k ∧ k < 0 + (fs.length + 1) ∧
      (!(fs.contains (dupeCandidate dir stem frame time ext k))) = true :=
    ⟨m, Nat.zero_le m, by omega, by rw [hm2]; decide⟩
  obtain ⟨g1, g2, g3⟩ := dupeSearch_spec
    (fun k => !(fs.contains (dupeCandidate dir stem frame time ext k))) (fs.length + 1) 0 hex
  refine ⟨?_, ?_, ?_⟩
  · exact (Bool.not_eq_true' _) ▸ g1
  · intro k hk
    have := g3 k (Nat.zero_le k) hk
    rw [Bool.not_eq_false'] at this
    exact this
  · intro h0
    by_contra hne
    have := g3 0 (Nat.zero_le 0) (by omega)
    rw [Bool.not_eq_false'] at this
    rw [h0] at this
    cases this

/-- C8 witness: with `shot_0001_24-01-01T00.00.00.exr` existing the same
request yields the `" (1)"` suffix, a repeated request yields `" (2)"`, and
the probed smaller candidate indeed exists. -/
theorem C8_witness :
    (prevent_duplicate_files ["shot_0001_24-01-01T00.00.00.exr"] false 0
      "shot.exr" 1 "24-01-01T00.00.00").1 = "shot_0001_24-01-01T00.00.00 (1).exr" ∧
    (prevent_duplicate_files
      ["shot_0001_24-01-01T00.00.00.exr", "shot_0001_24-01-01T00.00.00 (1).exr"] false 0
      "shot.exr" 1 "24-01-01T00.00.00").1 = "shot_0001_24-01-01T00.00.00 (2).exr" ∧
    ["shot_0001_24-01-01T00.00.00.exr"].contains
      (dupeCandidate "" "shot" 1 "24-01-01T00.00.00" ".exr" 0) = true :=
  ⟨by decide, by decide,
   (C8_duplicate_probe ["shot_0001_24-01-01T00.00.00.exr"] "" "shot" 1
     "24-01-01T00.00.00" ".exr").2.1 0 (by decide)⟩

/-! ### Executor-loop lemmas -/

theorem frame_loop_effects
    {cfg : HostCfg} {pc : Bool} {rid : Nat} {cam a b pa : String} {res : List String}
    {t : String} : ∀ {frames : List Int} {w : World} {st : LoopSt} {w' : World}
    {st' : LoopSt} {err : Option PyErr},
    frame_loop cfg pc rid cam a b pa res t frames w st = (w', st', err) →
    st'.total_rows_to_render = st.total_rows_to_render ∧
    st'.rendered_rows = st.rendered_rows ∧
    st'.python_render_error = st.python_render_error ∧
    st'.render_queue_canceled = st.render_queue_canceled ∧
    w'.host.renderPixelAspect = w.host.renderPixelAspect ∧
    w'.host.renderDialogOpen = w.host.renderDialogOpen ∧
    st.canceled_renders ≤ st'.canceled_renders := by
  intro frames
  induction frames with
  | nil =>
    intro w st w' st' err h
    cases h
    exact ⟨rfl, rfl, rfl, rfl, rfl, rfl, le_refl _⟩
  | cons fr rest ih =>
    intro w st w' st' err h
    simp only [frame_loop] at h
    repeat' split at h
    all_goals first
      | (cases h
         refine ⟨rfl, rfl, rfl, rfl, rfl, rfl, ?_⟩
         try dsimp only
         omega)
      | (obtain ⟨a1, a2, a3, a4, a5, a6, a7⟩ := ih h
         refine ⟨a1, a2, a3, a4, a5, a6, ?_⟩
         try dsimp only at a7
         omega)


theorem process_row_disabled (cfg : HostCfg) (pc : Bool) (rid : Nat) (e : Entry)
    (w : World) (st : LoopSt) (hU : e.Use = false) :
    process_row cfg pc rid e w st = (w, st, .normal) := by
  unfold process_row
  rw [hU]
  rfl

theorem process_row_counts_enabled (cfg : HostCfg) (rid : Nat) (e : Entry) (w : World)
    (st : LoopSt) (hU : e.Use = true) : ∀ {w' : World} {st' : LoopSt} {ex : RowExit},
    process_row cfg true rid e w st = (w', st', ex) →
    st'.total_rows_to_render = st.total_rows_to_render + 1 := by
  intro w' st' ex h
  unfold process_row at h
  rw [hU] at h
  rw [if_neg (by decide : ¬((!true) = true))] at h
  rw [if_pos (by decide : (true : Bool) = true)] at h
  dsimp only at h
  repeat' split at h
  all_goals cases h
  all_goals first
    | rfl
    | (rename_i hfl _; exact (frame_loop_effects hfl).1)
    | (rename_i hfl; exact (frame_loop_effects hfl).1)

theorem frame_loop_files {cfg : HostCfg} {pc : Bool} {rid : Nat} {cam a b pa : String}
    {res : List String} {t : String} : ∀ {frames : List Int} {w : World} {st : LoopSt}
    {w' : World} {st' : LoopSt} {err : Option PyErr},
    frame_loop cfg pc rid cam a b pa res t frames w st = (w', st', err) →
    ∀ f ∈ w'.files, f ∈ w.files ∨ (f.row = rid ∧ f.formatted_time = t) := by
  intro frames
  induction frames with
  | nil =>
    intro w st w' st' err h
    cases h
    exact fun f hf => Or.inl hf
  | cons fr rest ih =>
    intro w st w' st' err h
    simp only [frame_loop] at h
    repeat' split at h
    all_goals first
      | (cases h
         intro f hf
         rcases List.mem_append.1 hf with h1 | h1
         · exact Or.inl h1
         · rw [List.mem_singleton] at h1
           subst h1
           exact Or.inr ⟨rfl, rfl⟩)
      | (intro f hf
         rcases ih h f hf with h1 | h1
         · rcases List.mem_append.1 h1 with h2 | h2
           · exact Or.inl h2
           · rw [List.mem_singleton] at h2
             subst h2
             exact Or.inr ⟨rfl, rfl⟩
         · exact Or.inr h1)

theorem process_row_files {cfg : HostCfg} {pc : Bool} {rid : Nat} {e : Entry} {w : World}
    {st : LoopSt} {w' : World} {st' : LoopSt} {ex : RowExit}
    (h : process_row cfg pc rid e w st = (w', st', ex)) :
    ∃ tv, ∀ f ∈ w'.files, f ∈ w.files ∨ (f.row = rid ∧ f.formatted_time = tv) := by
  unfold process_row at h
  dsimp only at h
  repeat' split at h
  all_goals cases h
  all_goals first
    | exact ⟨"", fun f hf => Or.inl hf⟩
    | (rename_i hfl _
       have hres := frame_loop_files hfl
       exact ⟨_, hres⟩)
    | (rename_i hfl
       have hres := frame_loop_files hfl
       exact ⟨_, hres⟩)

theorem consistent_step {files newfiles : List FrameFile} {rid : Nat} {rows : List Nat}
    {tv : String}
    (hc : rowTimesConsistent files)
    (hfresh : ∀ f ∈ files, f.row ∉ rid :: rows)
    (hmem : ∀ f ∈ newfiles, f ∈ files ∨ (f.row = rid ∧ f.formatted_time = tv)) :
    rowTimesConsistent newfiles ∧ (rid ∉ rows → ∀ f ∈ newfiles, f.row ∉ rows) := by
  constructor
  · intro f hf g hg hrow
    rcases hmem f hf with hf1 | ⟨hf2, hf3⟩
    · rcases hmem g hg with hg1 | ⟨hg2, hg3⟩
      · exact hc f hf1 g hg1 hrow
      · have heq : f.row = rid := hrow.trans hg2
        have hnot := hfresh f hf1
        rw [heq] at hnot
        exact absurd (List.mem_cons_self rid rows) hnot
    · rcases hmem g hg with hg1 | ⟨hg2, hg3⟩
      · have heq : g.row = rid := hrow.symm.trans hf2
        have hnot := hfresh g hg1
        rw [heq] at hnot
        exact absurd (List.mem_cons_self rid rows) hnot
      · rw [hf3, hg3]
  · intro hnotin f hf
    rcases hmem f hf with h1 | ⟨h2, _⟩
    · exact fun hin => hfresh f h1 (List.mem_cons_of_mem _ hin)
    · rw [h2]
      exact hnotin

theorem rows_loop_times {cfg : HostCfg} {pc : Bool} : ∀ {rows : List (Nat × Entry)}
    {w : World} {st : LoopSt} {w' : World} {st' : LoopSt} {err : Option PyErr},
    render_rows_loop cfg pc rows w st = (w', st', err) →
    (rows.map Prod.fst).Nodup →
    rowTimesConsistent w.files →
    (∀ f ∈ w.files, f.row ∉ rows.map Prod.fst) →
    rowTimesConsistent w'.files := by
  intro rows
  induction rows with
  | nil =>
    intro w st w' st' err h _ hc _
    cases h
    exact hc
  | cons p rest ih =>
    obtain ⟨rid, e⟩ := p
    intro w st w' st' err h hnd hc hfresh
    simp only [List.map_cons, List.nodup_cons] at hnd
    simp only [List.map_cons] at hfresh
    simp only [render_rows_loop] at h
    split at h
    all_goals rename_i w1 st1 hpr
    case _ =>
      obtain ⟨tv, hmem⟩ := process_row_files hpr
      obtain ⟨hc1, hfr1⟩ := consistent_step hc hfresh hmem
      exact ih h hnd.2 hc1 (hfr1 hnd.1)
    case _ =>
      rename_i m
      obtain ⟨tv, hmem⟩ := process_row_files hpr
      obtain ⟨hc1, hfr1⟩ := consistent_step hc hfresh hmem
      exact ih h hnd.2 hc1 (hfr1 hnd.1)
    case _ =>
      rename_i errv
      cases h
      obtain ⟨tv, hmem⟩ := process_row_files hpr
      exact (consistent_step hc hfresh hmem).1
    case _ =>
      cases h
      obtain ⟨tv, hmem⟩ := process_row_files hpr
      exact (consistent_step hc hfresh hmem).1

theorem thresholdHit_iff (st : LoopSt) :
    thresholdHit st = true ↔ max_canceled_before_exit ≤ st.canceled_renders := by
  simp [thresholdHit, max_canceled_before_exit]

theorem countCanceled_append (l₁ l₂ : List RenderCall) :
    countCanceled (l₁ ++ l₂) = countCanceled l₁ + countCanceled l₂ := by
  simp [countCanceled, List.filter_append]

theorem countCanceled_single_one (c : RenderCall) (h : c.result = 1) :
    countCanceled [c] = 1 := by
  simp [countCanceled, List.filter, h]

theorem countCanceled_single_ne (c : RenderCall) (h : c.result ≠ 1) :
    countCanceled [c] = 0 := by
  have hb : (c.result == 1) = false := beq_eq_false_iff_ne.mpr h
  simp [countCanceled, List.filter, hb]

theorem belowThreshold_append {l : List RenderCall} (c : RenderCall)
    (hbt : belowThresholdTrace l) (hlt : countCanceled l < max_canceled_before_exit) :
    belowThresholdTrace (l ++ [c]) := by
  intro i hi
  simp only [List.length_append, List.length_singleton] at hi
  have hile : i ≤ l.length := by omega
  rw [take_append_of_le i l [c] hile]
  rcases Nat.lt_or_ge i l.length with hlt2 | hge
  · exact hbt i hlt2
  · have : i = l.length := by omega
    rw [this, List.take_length]
    exact hlt

theorem frame_loop_count_inv {cfg : HostCfg} {rid : Nat} {cam a b pa : String}
    {res : List String} {t : String} : ∀ {frames : List Int} {w : World} {st : LoopSt}
    {w' : World} {st' : LoopSt} {err : Option PyErr},
    frame_loop cfg false rid cam a b pa res t frames w st = (w', st', err) →
    st.canceled_renders = countCanceled w.renders →
    st.canceled_renders < max_canceled_before_exit →
    belowThresholdTrace w.renders →
    (st'.canceled_renders = countCanceled w'.renders ∧
     belowThresholdTrace w'.renders ∧
     st'.canceled_renders ≤ max_canceled_before_exit ∧
     (err ≠ none → st'.canceled_renders < max_canceled_before_exit)) := by
  intro frames
  induction frames with
  | nil =>
    intro w st w' st' err h hc hlt hbt
    cases h
    exact ⟨hc, hbt, by omega, fun _ => hlt⟩
  | cons fr rest ih =>
    intro w st w' st' err h hc hlt hbt
    simp only [frame_loop] at h
    dsimp only at h
    rw [if_neg (by decide : ¬((false : Bool) = true))] at h
    by_cases hdbg : cfg.debugDisableRendering = true
    · rw [if_pos hdbg] at h
      by_cases hth : thresholdHit st = true
      · exact absurd ((thresholdHit_iff st).1 hth) (by omega)
      · rw [if_neg hth] at h
        exact ih h hc hlt hbt
    · rw [if_neg hdbg] at h
      split at h
      · cases h
        exact ⟨hc, hbt, by omega, fun _ => hlt⟩
      · rename_i s0 hs0
        split at h
        · cases h
          exact ⟨hc, hbt, by omega, fun _ => hlt⟩
        · rename_i iw hiw
          split at h
          · cases h
            exact ⟨hc, hbt, by omega, fun _ => hlt⟩
          · rename_i s1 hs1
            split at h
            · cases h
              exact ⟨hc, hbt, by omega, fun _ => hlt⟩
            · rename_i ihh hih
              by_cases hres : do_render (cfg.renderObs w.renderIdx) = 1
              · rw [if_pos hres] at h
                rw [hres] at h
                have hc1 : st.canceled_renders + 1
                    = countCanceled (w.renders ++ [⟨rid, fr, cam,
                      (prevent_duplicate_files cfg.fs false w.promptIdx a fr t).1, pa, 1⟩]) := by
                  rw [countCanceled_append, countCanceled_single_one _ rfl, hc]
                have hbt1 := belowThreshold_append (l := w.renders)
                  (⟨rid, fr, cam, (prevent_duplicate_files cfg.fs false w.promptIdx a fr t).1,
                    pa, 1⟩ : RenderCall) hbt (hc ▸ hlt)
                by_cases hth : thresholdHit
                    { st with canceled_renders := st.canceled_renders + 1 } = true
                · rw [if_pos hth] at h
                  cases h
                  refine ⟨hc1, hbt1, by dsimp only; omega, fun hne => absurd rfl hne⟩
                · rw [if_neg hth] at h
                  have hlt1 : st.canceled_renders + 1 < max_canceled_before_exit := by
                    rcases Nat.lt_or_ge (st.canceled_renders + 1) max_canceled_before_exit
                      with h1 | h1
                    · exact h1
                    · exact absurd ((thresholdHit_iff _).2 h1) hth
                  exact ih h hc1 hlt1 hbt1
              · rw [if_neg hres] at h
                have hc0 : st.canceled_renders
                    = countCanceled (w.renders ++ [⟨rid, fr, cam,
                      (prevent_duplicate_files cfg.fs false w.promptIdx a fr t).1, pa,
                      do_render (cfg.renderObs w.renderIdx)⟩]) := by
                  rw [countCanceled_append, countCanceled_single_ne _ hres, hc]
                  omega
                have hbt0 := belowThreshold_append (l := w.renders)
                  (⟨rid, fr, cam, (prevent_duplicate_files cfg.fs false w.promptIdx a fr t).1,
                    pa, do_render (cfg.renderObs w.renderIdx)⟩ : RenderCall) hbt (hc ▸ hlt)
                by_cases hth : thresholdHit st = true
                · exact absurd ((thresholdHit_iff st).1 hth) (by omega)
                · rw [if_neg hth] at h
                  exact ih h hc0 hlt hbt0

theorem get_pixel_aspect_host (pa : String) (h : HostState) :
    ((get_pixel_aspect pa h).2).renderWidth = h.renderWidth ∧
    ((get_pixel_aspect pa h).2).renderHeight = h.renderHeight ∧
    ((get_pixel_aspect pa h).2).renderDialogOpen = h.renderDialogOpen := by
  unfold get_pixel_aspect
  split
  all_goals exact ⟨rfl, rfl, rfl⟩

theorem process_row_dialog {cfg : HostCfg} {pc : Bool} {rid : Nat} {e : Entry} {w : World}
    {st : LoopSt} {w' : World} {st' : LoopSt} {ex : RowExit}
    (h : process_row cfg pc rid e w st = (w', st', ex)) :
    w'.host.renderDialogOpen = w.host.renderDialogOpen := by
  unfold process_row at h
  dsimp only at h
  repeat' split at h
  all_goals cases h
  all_goals try rfl
  all_goals try exact (get_pixel_aspect_host e.Pixel_Aspect w.host).2.2
  all_goals try (rename_i hfl _; have hres := (frame_loop_effects hfl).2.2.2.2.2.1; exact hres.trans (get_pixel_aspect_host e.Pixel_Aspect w.host).2.2)
  all_goals try (rename_i hfl; have hres := (frame_loop_effects hfl).2.2.2.2.2.1; exact hres.trans (get_pixel_aspect_host e.Pixel_Aspect w.host).2.2)

theorem process_row_break_restores {cfg : HostCfg} {pc : Bool} {rid : Nat} {e : Entry}
    {w : World} {st : LoopSt} {w' : World} {st' : LoopSt}
    (h : process_row cfg pc rid e w st = (w', st', .breakQueue)) :
    w'.host.renderWidth = w.host.renderWidth ∧
    w'.host.renderHeight = w.host.renderHeight := by
  unfold process_row at h
  dsimp only at h
  repeat' split at h
  all_goals cases h
  all_goals exact ⟨rfl, rfl⟩

theorem process_row_count_inv {cfg : HostCfg} {rid : Nat} {e : Entry} {w : World}
    {st : LoopSt} {w' : World} {st' : LoopSt} {ex : RowExit}
    (h : process_row cfg false rid e w st = (w', st', ex))
    (hc : st.canceled_renders = countCanceled w.renders)
    (hlt : st.canceled_renders < max_canceled_before_exit)
    (hbt : belowThresholdTrace w.renders)
    (hrq : st.render_queue_canceled = false) :
    (st'.canceled_renders = countCanceled w'.renders ∧
     belowThresholdTrace w'.renders ∧
     (ex = .breakQueue → st'.render_queue_canceled = true) ∧
     (ex ≠ .breakQueue →
       st'.canceled_renders < max_canceled_before_exit ∧
       st'.render_queue_canceled = false)) := by
  unfold process_row at h
  dsimp only at h
  rw [if_neg (by decide : ¬((false : Bool) = true))] at h
  simp only [Bool.not_false, Bool.and_true] at h
  repeat' split at h
  all_goals cases h
  all_goals try (exact ⟨hc, hbt, fun hbr => RowExit.noConfusion hbr, fun _ => ⟨hlt, hrq⟩⟩)
  all_goals try (rename_i hfl hthr; obtain ⟨g1, g2, g3, g4⟩ := frame_loop_count_inv hfl hc hlt hbt; exact ⟨g1, g2, fun _ => rfl, fun hnb => absurd rfl hnb⟩)
  all_goals try (rename_i hfl hthr; obtain ⟨g1, g2, g3, g4⟩ := frame_loop_count_inv hfl hc hlt hbt; have hrqp := (frame_loop_effects hfl).2.2.2.1; refine ⟨g1, g2, fun hbr => RowExit.noConfusion hbr, fun _ => ⟨?_, hrqp.trans hrq⟩⟩; by_contra hge; push_neg at hge; exact hthr ((thresholdHit_iff _).2 hge))
  all_goals (rename_i hfl; obtain ⟨g1, g2, g3, g4⟩ := frame_loop_count_inv hfl hc hlt hbt; have hrqp := (frame_loop_effects hfl).2.2.2.1; exact ⟨g1, g2, fun hbr => RowExit.noConfusion hbr, fun _ => ⟨g4 (by simp), hrqp.trans hrq⟩⟩)

/-- C6 counterexample: a commit run over an entry with pixel-aspect
override `"2.0"` followed by an entry without an override, starting from a
global pixel aspect of `"1.0"`.  After the first entry completes, the global
pixel aspect is `"2.0"`, not its pre-entry value — and the second entry
renders with the inherited `"2.0"`. -/
theorem C6_counterexample :
    (main_phase cfg0 false [entryPA, entry3]
      (initialWorld host0) 2).world.host.renderPixelAspect = "2.0" ∧
    host0.renderPixelAspect = "1.0" ∧
    ("2.0" : String) ≠ "1.0" ∧
    (main_phase cfg0 false [entryPA, entry3]
      (initialWorld host0) 2).world.renders.map RenderCall.pixel_aspect = ["2.0", "2.0"] := by
  exact ⟨by decide, by decide, by decide, by decide⟩

/-- C6 (amended): the global render width/height follow save-override-restore
per entry, but the pixel aspect does not: `get_pixel_aspect` reads the global
for `Default` and writes the override through to the global otherwise, and no
restore exists — so after processing any enabled entry with a pixel-aspect
override (whose camera and frame range resolve), the host's global pixel
aspect equals the override value, whatever the entry's exit path, and a later
entry without an override reads that value. -/
theorem C6_pixel_aspect_written_through :
    (∀ h : HostState, get_pixel_aspect "Default" h = (h.renderPixelAspect, h)) ∧
    (∀ (pa : String) (h : HostState), pa ≠ "Default" →
      get_pixel_aspect pa h = (pa, { h with renderPixelAspect := pa })) ∧
    (∀ (cfg : HostCfg) (pc : Bool) (rid : Nat) (e : Entry) (w : World) (st : LoopSt)
      (w' : World) (st' : LoopSt) (ex : RowExit) (cam : String) (fr : FrameRange),
      e.Use = true → e.Pixel_Aspect ≠ "Default" →
      get_item_by_id cfg.objects e.Camera_Hidden = .ok cam →
      get_frame_range cfg e.Range = .ok fr →
      process_row cfg pc rid e w st = (w', st', ex) →
      w'.host.renderPixelAspect = e.Pixel_Aspect) := by
  refine ⟨fun h => rfl, fun pa h hpa => by simp [get_pixel_aspect, hpa], ?_⟩
  intro cfg pc rid e w st w' st' ex cam fr hU hpa hcam hfr h
  unfold process_row at h
  rw [hU] at h
  rw [if_neg (by decide : ¬((!true) = true))] at h
  rw [hcam, hfr] at h
  have hpaw : get_pixel_aspect e.Pixel_Aspect w.host
      = (e.Pixel_Aspect, { w.host with renderPixelAspect := e.Pixel_Aspect }) := by
    simp [get_pixel_aspect, hpa]
  rw [hpaw] at h
  dsimp only at h
  repeat' split at h
  all_goals cases h
  all_goals first
    | rfl
    | (rename_i hfl _
       have hres := (frame_loop_effects hfl).2.2.2.2.1
       exact hres)
    | (rename_i hfl
       have hres := (frame_loop_effects hfl).2.2.2.2.1
       exact hres)

/-- C6 witness. -/
theorem C6_witness :
    (process_row cfg0 false 0 entryPA (initialWorld host0)
      ⟨0, 0, 0, false, false⟩).1.host.renderPixelAspect = "2.0" :=
  C6_pixel_aspect_written_through.2.2 cfg0 false 0 entryPA (initialWorld host0)
    ⟨0, 0, 0, false, false⟩ _ _ _ "Cam01" (.lst [1]) rfl (by decide) (by decide) (by decide) rfl

/-- C3 counterexample: `formatted_time` is taken from `datetime.now()`
inside the per-row loop, once per entry — not once per queue invocation.  In
a commit run over two entries under a clock whose successive readings differ
(here by one second), the two entries' frames carry different timestamp
strings, refuting "all frames of all entries share the same timestamp". -/
theorem C3_counterexample :
    (main_phase cfg0 false [entry1, entry3] (initialWorld host0) 2).world.files.map
      FrameFile.formatted_time = ["25-01-01T00.00.00", "25-01-01T00.00.01"] ∧
    ("25-01-01T00.00.00" : String) ≠ "25-01-01T00.00.01" := by
  exact ⟨by decide, by decide⟩

/-- C3 (amended): the run timestamp is fixed once per entry — `formatted_time`
is read once, before the frame loop — so within any one invocation all
frames of the same entry share one timestamp string (while different entries
may read different clock values). -/
theorem C3_timestamp_fixed_per_entry (cfg : HostCfg) (pc : Bool) (entries : List Entry)
    (h : HostState) (total0 : Nat) :
    rowTimesConsistent (main_phase cfg pc entries (initialWorld h) total0).world.files := by
  unfold main_phase
  dsimp only
  split
  · intro f hf g hg _
    cases hf
  · split
    all_goals rename_i w1 st1 hloop
    case _ =>
      intro f hf
      have := rows_loop_times hloop
        (by rw [List.enum_map_fst]; exact List.nodup_range _)
        (fun f hf => by cases hf)
        (fun f hf => by cases hf)
      exact this f hf
    case _ =>
      dsimp only
      split
      all_goals
        intro f hf
        have := rows_loop_times hloop
          (by rw [List.enum_map_fst]; exact List.nodup_range _)
          (fun f hf => by cases hf)
          (fun f hf => by cases hf)
        exact this f hf

/-- C3 witness: two frames of the same entry share the timestamp. -/
theorem C3_witness :
    ((main_phase cfg0 false [entryFrames] (initialWorld host0) 1).world.files.get
        ⟨0, by decide⟩).formatted_time
      = ((main_phase cfg0 false [entryFrames] (initialWorld host0) 1).world.files.get
        ⟨1, by decide⟩).formatted_time :=
  C3_timestamp_fixed_per_entry cfg0 false [entryFrames] host0 1
    _ (List.get_mem _ _ _) _ (List.get_mem _ _ _) (by decide)

/-- C2 counterexample: a pre-check over three enabled entries where only
entry 2's camera identity is unresolvable.  Processing does continue (the
frame loops of entries 1 and 3 run, so rows 0 and 2 allocate file names) and
the queue-level error flag is set — but the would-render counter ends at 3,
not at the 2 successfully validated entries: the increment happens before
any validation, so the claim's "counts exactly the enabled entries that
validated successfully" is false. -/
theorem C2_counterexample :
    (main_phase cfg0 true [entry1, entryBadCamera, entry3]
      (initialWorld host0) 0).locals.total_rows_to_render = 3 ∧
    (main_phase cfg0 true [entry1, entryBadCamera, entry3]
      (initialWorld host0) 0).locals.python_render_error = true ∧
    (main_phase cfg0 true [entry1, entryBadCamera, entry3]
      (initialWorld host0) 0).world.files.map FrameFile.row = [0, 2] ∧
    ¬ (main_phase cfg0 true [entry1, entryBadCamera, entry3]
      (initialWorld host0) 0).locals.total_rows_to_render = 2 := by
  exact ⟨by decide, by decide, by decide, by decide⟩

/-- C2 (amended): pre-check is exhaustive and its error flag stops commit,
but the would-render counter counts every enabled entry reached, not only
those that validate: (1) any enabled entry increments the counter by exactly
one whatever its validation outcome; (2) a disabled entry is skipped
untouched; and in the three-entry scenario with entry 2's camera
unresolvable the error flag makes pre-check return `False`, so the commit
invocation performs zero renders and returns `None` (commit never starts),
while entries 1 and 3 were still processed. -/
theorem C2_precheck_exhaustive_counter :
    (∀ (cfg : HostCfg) (rid : Nat) (e : Entry) (w : World) (st : LoopSt)
      (w' : World) (st' : LoopSt) (ex : RowExit), e.Use = true →
      process_row cfg true rid e w st = (w', st', ex) →
      st'.total_rows_to_render = st.total_rows_to_render + 1) ∧
    (∀ (cfg : HostCfg) (rid : Nat) (e : Entry) (w : World) (st : LoopSt), e.Use = false →
      process_row cfg true rid e w st = (w, st, .normal)) ∧
    (main_phase cfg0 true [entry1, entryBadCamera, entry3]
      (initialWorld host0) 0).ret = .ok (.boolV false) ∧
    (start_batch_render cfg0 false [entry1, entryBadCamera, entry3]
      (initialWorld host0)).world.renders = [] ∧
    (start_batch_render cfg0 false [entry1, entryBadCamera, entry3]
      (initialWorld host0)).ret = .ok .noneV := by
  refine ⟨?_, ?_, by decide, by decide, by decide⟩
  · intro cfg rid e w st w' st' ex hU h
    exact process_row_counts_enabled cfg rid e w st hU h
  · intro cfg rid e w st hU
    exact process_row_disabled cfg true rid e w st hU

/-- C2 witness. -/
theorem C2_witness :
    ((process_row cfg0 true 5 entry1 (initialWorld host0)
        ⟨0, 7, 0, false, false⟩).2.1).total_rows_to_render = 7 + 1 :=
  C2_precheck_exhaustive_counter.1 cfg0 5 entry1 (initialWorld host0)
    ⟨0, 7, 0, false, false⟩ _ _ _ rfl rfl

/-- C10: a frame whose render call comes back with `canceled = true` but
whose V-Ray error log holds a line with an `"error: "` marker timestamped at
or after the render's start is classified failed (return code 2), not
canceled (return code 1); and a frame whose `do_render` call returns 2 does
not increment the run-level `canceled_renders` counter that drives the
queue-abort threshold. -/
theorem C10_canceled_with_logged_error_is_failed :
    (∀ o : RenderObs, o.canceled = true →
      (∃ l ∈ o.log, o.t0 ≤ l.ts ∧ strContains l.text "error: " = true) →
      do_render o = 2) ∧
    (∀ (cfg : HostCfg) (row : Nat) (cam exr png pa t : String) (res : List String)
      (frame : Int) (w : World) (st : LoopSt),
      do_render (cfg.renderObs w.renderIdx) = 2 →
      ((frame_loop cfg false row cam exr png pa res t [frame] w st).2.1).canceled_renders
        = st.canceled_renders) := by
  constructor
  · intro o hc hx
    have htr : pyTruthyStr (do_render_error o) = true := by
      unfold do_render_error
      rw [hc]
      exact were_there_render_errors_truthy hx
    unfold do_render
    rw [hc]
    simp [htr]
  · intro cfg row cam exr png pa t res frame w st h2
    simp only [frame_loop]
    by_cases hdbg : cfg.debugDisableRendering
    · simp only [hdbg, if_true]
      split <;> simp [frame_loop]
    · simp only [hdbg, Bool.false_eq_true, if_false]
      cases hr0 : res.get? 0 with
      | none => simp [hr0]
      | some s0 =>
        cases hi0 : pyInt s0 with
        | none => simp [hr0, hi0]
        | some iw =>
          cases hr1 : res.get? 1 with
          | none => simp [hr0, hi0, hr1]
          | some s1 =>
            cases hi1 : pyInt s1 with
            | none => simp [hr0, hi0, hr1, hi1]
            | some ih =>
              simp only [hr0, hi0, hr1, hi1, h2]
              split <;> first
                | omega
                | (split <;> simp [frame_loop])

/-- C10 witness. -/
theorem C10_witness :
    do_render ⟨true, false, 0, [⟨"[2024/Aug/21|11:37:54]", 100, " error: boom"⟩], 50⟩ = 2 :=
  C10_canceled_with_logged_error_is_failed.1
    ⟨true, false, 0, [⟨"[2024/Aug/21|11:37:54]", 100, " error: boom"⟩], 50⟩ rfl
    ⟨⟨"[2024/Aug/21|11:37:54]", 100, " error: boom"⟩, by decide, by decide, by decide⟩

/-- C1 counterexample: a commit-mode frame whose host reports
`canceled = false`, whose output EXR exists afterwards, and whose
modification time is 60 seconds older than the current time is classified
with return code 2 (failed), not 0 (success) as the claim states. -/
theorem C1_counterexample :
    do_render ⟨false, true, 60, [], 0⟩ = 2 ∧ ¬ do_render ⟨false, true, 60, [], 0⟩ = 0 := by
  decide

/-- C1 (amended): for every commit-mode frame render where the host reports
`canceled = false` and the output EXR exists but its modification time is 60
seconds or more older than the current time, `do_render` records the
staleness warning in `vray_log_error` and — because that variable also drives
the final classification — classifies the frame as failed (return code 2),
not as success. -/
theorem C1_stale_file_classified_failed (o : RenderObs) (hc : o.canceled = false)
    (hf : o.fileExists = true) (ha : 60 ≤ o.fileAge) :
    do_render o = 2 ∧ do_render_error o = some staleFileMsg := by
  have herr : do_render_error o = some staleFileMsg := by
    unfold do_render_error
    rw [hc, hf]
    simp [ge_iff_le, ha]
  refine ⟨?_, herr⟩
  unfold do_render
  rw [herr, hc]
  decide

/-- C1 witness. -/
theorem C1_witness : do_render ⟨false, true, 120, [], 7⟩ = 2 :=
  (C1_stale_file_classified_failed ⟨false, true, 120, [], 7⟩ rfl rfl (by decide)).1

/-- C4: the frame-range parser turns the literal `"1:3"` into
`range(1, 4)`, whose frames are `[1, 2, 3]` — but the display string for a
contiguous step-1 range is built from `range.start` and `range.stop`, and
`stop` is one past the last frame, so the display is `"1-4"`, not the
`"A-B"`-with-`B`-the-last-frame (`"1-3"`) the claim states. -/
theorem C4_display_uses_exclusive_stop (cfg : HostCfg) :
    get_frame_range cfg "1:3" = .ok (.rng 1 4 1) ∧
    (FrameRange.rng 1 4 1).toList = [1, 2, 3] ∧
    get_frame_range_display (.rng 1 4 1) = "1-4" ∧
    get_frame_range_display (.rng 1 4 1) ≠ "1-3" := by
  refine ⟨rfl, by decide, by decide, by decide⟩

/-- C5: for every literal (non-`DEFAULT_PATH_TEXT`) output path the
allocator raises `UnboundLocalError` — the literal branch never assigns
`output_path_png`, yet the function reads it unconditionally — instead of
returning the EXR/PNG pair; the missing-directory check is never even
reached. -/
theorem C5_literal_path_raises_unbound_local (cfg : HostCfg) (output_path name : String)
    (h : output_path ≠ DEFAULT_PATH_TEXT) :
    get_output_path cfg output_path name = .error (.unboundLocal "output_path_png") := by
  simp [get_output_path, h]

/-- C5 witness: a literal path whose directory exists still raises. -/
theorem C5_witness :
    get_output_path cfg0 "C:\\out\\shot.exr" "Cam01" = .error (.unboundLocal "output_path_png") :=
  C5_literal_path_raises_unbound_local cfg0 "C:\\out\\shot.exr" "Cam01" (by decide)

/-- C9: the `Default` name sentinel starts from the literal `{Camera}`
template; camera `Cam01_VRayPhysicalCamera` has the physical-camera suffix
stripped so the name resolves to `Cam01` (and validates); and
`{Camera}_{Scene State}` with camera `Cam01` and an empty scene
configuration resolves to `Cam01_` with the blank-value flag set. -/
theorem C9_template_resolution :
    startingName "Default" = "\x7bCamera\x7d" ∧
    resolveName ⟨"Default", "Cam01_VRayPhysicalCamera", none, "", "", "640x480", "1.0"⟩ =
      ("Cam01", false) ∧
    get_valid_filename false (fun _ => none) 0
      ⟨"Default", "Cam01_VRayPhysicalCamera", none, "", "", "640x480", "1.0"⟩ =
      (0, .ok "Cam01") ∧
    resolveName ⟨"\x7bCamera\x7d_\x7bScene State\x7d", "Cam01", none, "", "", "640x480", "1.0"⟩ =
      ("Cam01_", true) := by
  refine ⟨by decide, by decide, by decide, by decide⟩

theorem belowThreshold_nil : belowThresholdTrace [] := by
  intro i hi
  simp at hi

theorem rows_loop_count_inv {cfg : HostCfg} : ∀ {rows : List (Nat × Entry)} {w : World}
    {st : LoopSt} {w' : World} {st' : LoopSt} {err : Option PyErr},
    render_rows_loop cfg false rows w st = (w', st', err) →
    st.canceled_renders = countCanceled w.renders →
    st.canceled_renders < max_canceled_before_exit →
    belowThresholdTrace w.renders →
    st.render_queue_canceled = false →
    (belowThresholdTrace w'.renders ∧
     (∀ e, err = some e → st'.render_queue_canceled = false)) := by
  intro rows
  induction rows with
  | nil =>
    intro w st w' st' err h hc hlt hbt hrq
    cases h
    exact ⟨hbt, fun e _ => hrq⟩
  | cons rc rest ih =>
    intro w st w' st' err h hc hlt hbt hrq
    obtain ⟨rid, e⟩ := rc
    simp only [render_rows_loop] at h
    rcases hp : process_row cfg false rid e w st with ⟨w1, st1, ex⟩
    rw [hp] at h
    obtain ⟨g1, g2, g3, g4⟩ := process_row_count_inv hp hc hlt hbt hrq
    cases ex with
    | normal =>
      obtain ⟨hne1, hne2⟩ := g4 (fun hb => RowExit.noConfusion hb)
      exact ih h g1 hne1 g2 hne2
    | caught m =>
      obtain ⟨hne1, hne2⟩ := g4 (fun hb => RowExit.noConfusion hb)
      exact ih h g1 hne1 g2 hne2
    | fatal er =>
      cases h
      obtain ⟨hne1, hne2⟩ := g4 (fun hb => RowExit.noConfusion hb)
      exact ⟨g2, fun e2 _ => hne2⟩
    | breakQueue =>
      cases h
      exact ⟨g2, fun e2 he => Option.noConfusion he⟩

theorem rows_loop_dialog {cfg : HostCfg} {pc : Bool} : ∀ {rows : List (Nat × Entry)}
    {w : World} {st : LoopSt} {w' : World} {st' : LoopSt} {err : Option PyErr},
    render_rows_loop cfg pc rows w st = (w', st', err) →
    w'.host.renderDialogOpen = w.host.renderDialogOpen := by
  intro rows
  induction rows with
  | nil =>
    intro w st w' st' err h
    cases h
    rfl
  | cons rc rest ih =>
    intro w st w' st' err h
    obtain ⟨rid, e⟩ := rc
    simp only [render_rows_loop] at h
    rcases hp : process_row cfg pc rid e w st with ⟨w1, st1, ex⟩
    rw [hp] at h
    have hd := process_row_dialog hp
    cases ex with
    | normal => exact (ih h).trans hd
    | caught m => exact (ih h).trans hd
    | fatal er =>
      cases h
      exact hd
    | breakQueue =>
      cases h
      exact hd

theorem check_VFB_commit (cfg : HostCfg) (h : HostState) (p : Nat) :
    (check_VFB_settings cfg false h p).1 = true ∧
    (check_VFB_settings cfg false h p).2.2.2 = p := by
  unfold check_VFB_settings
  dsimp only
  rw [Bool.and_false]
  exact ⟨rfl, rfl⟩

theorem check_VFB_dialog (cfg : HostCfg) (pc : Bool) (h : HostState) (p : Nat) :
    ((check_VFB_settings cfg pc h p).2.2.1).renderDialogOpen
      = ((check_VFB_settings cfg pc h p).2.1 || h.renderDialogOpen) := by
  unfold check_VFB_settings
  dsimp only
  repeat' split
  all_goals simp_all

/-- C7: in commit mode with the default threshold of 2, (1) every render in
the final trace of a run was attempted while the cancellation counter was
still below the threshold — once it reaches 2 no further frame of any entry
is rendered; (2) a run whose loop state ends with the queue-canceled flag
set returns `None`, the canceled terminal state; (3) a row exiting via the
cancellation `break` hands back the saved global render width/height
restored to their pre-row values; (4) a run that opens no dialog beforehand
and raises no uncaught exception ends with the render-settings dialog
closed. -/
theorem C7_threshold_aborts_queue :
    (∀ (cfg : HostCfg) (entries : List Entry) (h0 : HostState) (total0 : Nat),
      belowThresholdTrace
        (main_phase cfg false entries (initialWorld h0) total0).world.renders) ∧
    (∀ (cfg : HostCfg) (entries : List Entry) (h0 : HostState) (total0 : Nat),
      (main_phase cfg false entries (initialWorld h0) total0).locals.render_queue_canceled
          = true →
      (main_phase cfg false entries (initialWorld h0) total0).ret = .ok .noneV) ∧
    (∀ (cfg : HostCfg) (rid : Nat) (e : Entry) (w : World) (st : LoopSt),
      (process_row cfg false rid e w st).2.2 = .breakQueue →
      ((process_row cfg false rid e w st).1).host.renderWidth = w.host.renderWidth ∧
      ((process_row cfg false rid e w st).1).host.renderHeight = w.host.renderHeight) ∧
    (∀ (cfg : HostCfg) (entries : List Entry) (h0 : HostState) (total0 : Nat),
      h0.renderDialogOpen = false →
      (∃ r, (main_phase cfg false entries (initialWorld h0) total0).ret = .ok r) →
      (main_phase cfg false entries
        (initialWorld h0) total0).world.host.renderDialogOpen = false) := by
  refine ⟨?_, ?_, ?_, ?_⟩
  · intro cfg entries h0 total0
    unfold main_phase
    dsimp only
    split
    · exact belowThreshold_nil
    · split
      · rename_i hrr
        exact (rows_loop_count_inv hrr rfl Nat.zero_lt_two belowThreshold_nil rfl).1
      · rename_i hrr
        split
        · exact (rows_loop_count_inv hrr rfl Nat.zero_lt_two belowThreshold_nil rfl).1
        · exact (rows_loop_count_inv hrr rfl Nat.zero_lt_two belowThreshold_nil rfl).1
  · intro cfg entries h0 total0 hrqc
    rcases hm : main_phase cfg false entries (initialWorld h0) total0 with ⟨wr, str, retr⟩
    rw [hm] at hrqc
    unfold main_phase at hm
    dsimp only at hm
    split at hm
    · cases hm
      exact Bool.noConfusion hrqc
    · split at hm
      · rename_i hrr
        cases hm
        have hf := (rows_loop_count_inv hrr rfl Nat.zero_lt_two belowThreshold_nil rfl).2 _ rfl
        rw [hf] at hrqc
        exact Bool.noConfusion hrqc
      · cases hm
        dsimp only at hrqc ⊢
        rw [hrqc]
        rfl
  · intro cfg rid e w st hbr
    have heq : process_row cfg false rid e w st
        = ((process_row cfg false rid e w st).1,
           (process_row cfg false rid e w st).2.1, RowExit.breakQueue) := by
      rw [← hbr]
    exact process_row_break_restores heq
  · intro cfg entries h0 total0 hd hex
    obtain ⟨r, hr⟩ := hex
    rcases hm : main_phase cfg false entries (initialWorld h0) total0 with ⟨wr, str, retr⟩
    rw [hm] at hr
    unfold main_phase at hm
    dsimp only at hm
    split at hm
    · rename_i hv
      have hcc := (check_VFB_commit cfg (initialWorld h0).host (initialWorld h0).promptIdx).1
      rw [hcc] at hv
      exact absurd hv (by decide)
    · split at hm
      · cases hm
        dsimp only at hr
        exact Except.noConfusion hr
      · rename_i hrr
        cases hm
        dsimp only
        split
        · rfl
        · rename_i hvb
          simp only [Bool.not_eq_true] at hvb
          have h1 := rows_loop_dialog hrr
          have h2 := check_VFB_dialog cfg false (initialWorld h0).host
            (initialWorld h0).promptIdx
          have hd2 : (initialWorld h0).host.renderDialogOpen = false := hd
          have h3 : ((check_VFB_settings cfg false (initialWorld h0).host
              (initialWorld h0).promptIdx).2.2.1).renderDialogOpen = false := by
            rw [h2, hvb, hd2]
            rfl
          exact h1.trans h3

/-- C7 witness: two entries whose host cancels every render.  The first
entry has frames 1..3; its first two frames come back canceled, the
threshold of 2 aborts the queue before frame 3 and before the second
entry, the run returns `None`, the row hands back the original 640x480
size, and the dialog the run opened is closed again. -/
theorem C7_witness :
    belowThresholdTrace (main_phase cfgCanceled false [entryFrames, entry3]
      (initialWorld host0) 2).world.renders ∧
    (main_phase cfgCanceled false [entryFrames, entry3] (initialWorld host0) 2).ret
      = .ok .noneV ∧
    ((process_row cfgCanceled false 0 entryFrames (initialWorld host0)
        ⟨0, 2, 0, false, false⟩).1).host.renderWidth = (initialWorld host0).host.renderWidth ∧
    (main_phase cfgCanceled false [entryFrames, entry3]
      (initialWorld host0) 2).world.host.renderDialogOpen = false := by
  refine ⟨C7_threshold_aborts_queue.1 cfgCanceled [entryFrames, entry3] host0 2,
    C7_threshold_aborts_queue.2.1 cfgCanceled [entryFrames, entry3] host0 2 (by decide),
    (C7_threshold_aborts_queue.2.2.1 cfgCanceled 0 entryFrames (initialWorld host0)
      ⟨0, 2, 0, false, false⟩ (by decide)).1,
    C7_threshold_aborts_queue.2.2.2 cfgCanceled [entryFrames, entry3] host0 2 (by decide)
      ⟨.noneV, by decide⟩⟩

end BatchRender
